import Mathlib

/-!
# Verification of the `ai-themer` palette pipeline

Shallow embedding of the `ai_themer` Python package (files
`core/color_types.py`, `core/color_extractor.py`, `core/theme_applier.py`)
and proofs about it.

Modelling conventions:

* Python floats are modelled by exact rationals (`ℚ`).  The two operations
  that have no exact rational counterpart — the float power `x ** 2.4`
  used in the WCAG gamma correction, and `numpy`'s square root used in
  `np.std` and the LAB distance — are abstracted as function parameters
  (fields `pow24` and `sqrtQ` of the `Ops` record below).  Theorems that
  need a fact about `** 2.4` (only its nonnegativity) take it as an
  explicit hypothesis.
* Calls into third-party libraries (`colorspacious`, `sklearn.KMeans`,
  `colorthief`, PIL's `quantize`/`open`/`thumbnail`, jinja template
  rendering, `subprocess.run`) are abstracted as fields of the `Ops` /
  `ApplierEnv` records; the repository's own code around them is
  translated faithfully.
* Python exceptions are modelled by `Except String`; a raised exception is
  `.error msg`.
* Python dictionaries (`ColorPalette.colors`, the result dicts of the
  applier) are modelled by association lists in insertion order.
* Python's stable `list.sort(key=...)` is modelled by Mathlib's
  `List.insertionSort`, which is also stable: for a total preorder given
  by a key function the stable sort is unique, so the two agree.
* `sklearn`'s k-means is called with the literal `random_state=42`; to
  make the determinism claim meaningful the embedding threads an
  `ambient` seed (standing for whatever run-to-run randomness a run
  carries) which is consulted only when `random_state=None` would be
  passed — the code never does.
-/

namespace AIThemer

/-- `ColorRole` enum from `color_types.py`. -/
inductive ColorRole where
  | primary
  | secondary
  | accent
  | background
  | surface
  | text
  | textSecondary
  | border
  | warning
  | error
deriving DecidableEq, Repr

/-- `SemanticColor` dataclass: rgb channels, semantic role, confidence,
alpha.  Channel fields are unbounded integers as in Python; the clamping
performed by `__post_init__` lives in `SemanticColor.make`. -/
structure SemanticColor where
  r : ℤ
  g : ℤ
  b : ℤ
  role : ColorRole
  confidence : ℚ
  alpha : ℤ
deriving DecidableEq, Repr

instance : Inhabited SemanticColor := ⟨⟨0, 0, 0, ColorRole.primary, 1, 255⟩⟩

/-- `max lo (min hi x)` — the `max(lo, min(hi, x))` clamp used by
`SemanticColor.__post_init__` on integer channels. -/
def clampInt (lo hi x : ℤ) : ℤ := max lo (min hi x)

/-- The same clamp on rationals (for `confidence`). -/
def clampQ (lo hi x : ℚ) : ℚ := max lo (min hi x)

/-- Constructing a `SemanticColor`: the dataclass constructor followed by
`__post_init__`, which clamps `r`, `g`, `b`, `alpha` into `[0, 255]` and
`confidence` into `[0.0, 1.0]`. -/
def SemanticColor.make (r g b : ℤ) (role : ColorRole)
    (confidence : ℚ := 1) (alpha : ℤ := 255) : SemanticColor :=
  { r := clampInt 0 255 r
    g := clampInt 0 255 g
    b := clampInt 0 255 b
    role := role
    confidence := clampQ 0 1 confidence
    alpha := clampInt 0 255 alpha }

/-- `SemanticColor.from_rgb` (default role `PRIMARY`). -/
def SemanticColor.fromRgb (r g b : ℤ)
    (role : ColorRole := ColorRole.primary) : SemanticColor :=
  SemanticColor.make r g b role

/-- The sixteen lowercase hexadecimal digit characters. -/
def hexDigits : List Char := "0123456789abcdef".data

/-- Digit value `n` (`0 ≤ n < 16`) as a lowercase hex character. -/
def hexDigitChar (n : ℕ) : Char := hexDigits.getD n '0'

/-- Python's `f"{n:02x}"` for `0 ≤ n < 256` — the only values a channel of
a constructed `SemanticColor` can hold: two lowercase hex digits. -/
def pyHex2 (n : ℤ) : List Char :=
  [hexDigitChar (n.toNat / 16), hexDigitChar (n.toNat % 16)]

/-- The character list of `SemanticColor.hex` (`"#" + rr + gg + bb`). -/
def SemanticColor.hexData (c : SemanticColor) : List Char :=
  '#' :: (pyHex2 c.r ++ pyHex2 c.g ++ pyHex2 c.b)

/-- `SemanticColor.hex` property: `#rrggbb`, lowercase. -/
def SemanticColor.hex (c : SemanticColor) : String := ⟨c.hexData⟩

/-- `rgb_float`: channels scaled into `[0.0, 1.0]`. -/
def SemanticColor.rgbFloat (c : SemanticColor) : ℚ × ℚ × ℚ :=
  ((c.r : ℚ) / 255, (c.g : ℚ) / 255, (c.b : ℚ) / 255)

/-- `colorsys.rgb_to_hls` translated verbatim (exact rational
arithmetic); returns `(h, l, s)`, all in `[0, 1]` nominally.  Python's
float `%` with positive divisor is `Int.fract`. -/
def rgbToHls (r g b : ℚ) : ℚ × ℚ × ℚ :=
  let maxc := max r (max g b)
  let minc := min r (min g b)
  let sumc := maxc + minc
  let rangec := maxc - minc
  let l := sumc / 2
  if minc = maxc then (0, l, 0)
  else
    let s := if l ≤ 0.5 then rangec / sumc else rangec / (2 - sumc)
    let rc := (maxc - r) / rangec
    let gc := (maxc - g) / rangec
    let bc := (maxc - b) / rangec
    let h := if r = maxc then bc - gc
             else if g = maxc then 2 + rc - bc
             else 4 + gc - rc
    (Int.fract (h / 6), l, s)

/-- Helper `_v` of `colorsys.hls_to_rgb` (with the exact rationals `1/6`,
`1/3`, `2/3` in place of Python's float constants). -/
def hlsV (m1 m2 hue : ℚ) : ℚ :=
  let hue := Int.fract hue
  if hue < 1 / 6 then m1 + (m2 - m1) * hue * 6
  else if hue < 0.5 then m2
  else if hue < 2 / 3 then m1 + (m2 - m1) * (2 / 3 - hue) * 6
  else m1

/-- `colorsys.hls_to_rgb` translated verbatim. -/
def hlsToRgb (h l s : ℚ) : ℚ × ℚ × ℚ :=
  if s = 0 then (l, l, l)
  else
    let m2 := if l ≤ 0.5 then l * (1 + s) else l + s - l * s
    let m1 := 2 * l - m2
    (hlsV m1 m2 (h + 1 / 3), hlsV m1 m2 h, hlsV m1 m2 (h - 1 / 3))

/-- Python `int(...)` on a float: truncation toward zero. -/
def pyTrunc (q : ℚ) : ℤ := if q < 0 then -⌊-q⌋ else ⌊q⌋

/-- `SemanticColor.hsl` property: `(h*360, s*100, l*100)` where
`h, l, s = colorsys.rgb_to_hls(r/255, g/255, b/255)`. -/
def SemanticColor.hsl (c : SemanticColor) : ℚ × ℚ × ℚ :=
  let hls := rgbToHls ((c.r : ℚ) / 255) ((c.g : ℚ) / 255) ((c.b : ℚ) / 255)
  (hls.1 * 360, hls.2.2 * 100, hls.2.1 * 100)

/-- HSL saturation of a color (`hsl[1]` in the Python code). -/
def saturation (c : SemanticColor) : ℚ := c.hsl.2.1

/-- `SemanticColor.lighten(amount)`: raise HSL lightness by
`amount * 100` capped at 100, convert back, truncate to ints, rebuild
(the dataclass constructor re-clamps). -/
def SemanticColor.lighten (c : SemanticColor) (amount : ℚ) : SemanticColor :=
  let hsl := c.hsl
  let h := hsl.1
  let s := hsl.2.1
  let l := hsl.2.2
  let newL := min 100 (l + amount * 100)
  let rgb := hlsToRgb (h / 360) (newL / 100) (s / 100)
  SemanticColor.make (pyTrunc (rgb.1 * 255)) (pyTrunc (rgb.2.1 * 255))
    (pyTrunc (rgb.2.2 * 255)) c.role c.confidence

/-- A PIL image, identified with its pixel array
(`np.array(image).reshape(-1, 3)` recovers exactly this list). -/
structure RGBInt where
  r : ℤ
  g : ℤ
  b : ℤ
deriving DecidableEq, Repr

abbrev PILImage : Type := List RGBInt

/-- The abstracted operations: the two non-rational float functions and
the third-party library calls the extractor composes.  Everything the
repository itself computes is translated, not abstracted. -/
structure Ops where
  /-- float `x ** 2.4` (gamma correction). -/
  pow24 : ℚ → ℚ
  /-- `np.sqrt` (hence `np.std`). -/
  sqrtQ : ℚ → ℚ
  /-- `colorspacious.cspace_convert(·, "sRGB1", "CIELab")`. -/
  rgbToLab : ℚ × ℚ × ℚ → ℚ × ℚ × ℚ
  /-- `colorspacious.cspace_convert(·, "CIELab", "sRGB1")`. -/
  labToRgb : ℚ × ℚ × ℚ → ℚ × ℚ × ℚ
  /-- `KMeans(n_clusters=k, random_state=seed, n_init=10).fit(data)`
  followed by `.cluster_centers_`; may raise. -/
  kmeansCore : ℕ → List (ℚ × ℚ × ℚ) → ℕ → Except String (List (ℚ × ℚ × ℚ))
  /-- `ColorThief(path).get_color(quality=1)`; may raise. -/
  colorThiefGetColor : String → Except String RGBInt
  /-- `ColorThief(path).get_palette(color_count=n, quality=1)`; may raise. -/
  colorThiefGetPalette : String → ℕ → Except String (List RGBInt)
  /-- `image.quantize(colors=n, method=MEDIANCUT).getpalette()` as a flat
  list; a too-short list models a missing/short palette. -/
  quantizePalette : PILImage → ℕ → List ℤ
  /-- `Image.open(path).convert('RGB')`; may raise. -/
  openRGB : String → Except String PILImage
  /-- `image.thumbnail(size, LANCZOS)` (destructive resize). -/
  thumbnailOp : PILImage → ℕ × ℕ → PILImage

/-- WCAG `gamma_correct` from `SemanticColor.luminance`. -/
def gammaCorrect (ops : Ops) (c : ℚ) : ℚ :=
  if c ≤ 0.03928 then c / 12.92 else ops.pow24 ((c + 0.055) / 1.055)

/-- `SemanticColor.luminance`: WCAG relative luminance. -/
def luminance (ops : Ops) (c : SemanticColor) : ℚ :=
  0.2126 * gammaCorrect ops ((c.r : ℚ) / 255)
    + 0.7152 * gammaCorrect ops ((c.g : ℚ) / 255)
    + 0.0722 * gammaCorrect ops ((c.b : ℚ) / 255)

/-- `SemanticColor.contrast_ratio`: `(lighter + 0.05) / (darker + 0.05)`
with `lighter`/`darker` the larger/smaller of the two luminances. -/
def wcagContrast (ops : Ops) (c other : SemanticColor) : ℚ :=
  (max (luminance ops c) (luminance ops other) + 0.05)
    / (min (luminance ops c) (luminance ops other) + 0.05)

/-- One hexadecimal digit as Python `int(·, 16)` reads it (either
case accepted), written by codepoint ranges. -/
def parseHexDigit (c : Char) : Option ℕ :=
  if '0' ≤ c ∧ c ≤ '9' then some (c.toNat - '0'.toNat)
  else if 'a' ≤ c ∧ c ≤ 'f' then some (c.toNat - 'a'.toNat + 10)
  else if 'A' ≤ c ∧ c ≤ 'F' then some (c.toNat - 'A'.toNat + 10)
  else none

/-- Python `int(s, 16)` on a two-character slice of hex digits. -/
def parseHex2 (a b : Char) : Option ℕ :=
  match parseHexDigit a, parseHexDigit b with
  | some x, some y => some (16 * x + y)
  | _, _ => none

/-- The `int(hex_color[0:2], 16)` / `[2:4]` / `[4:6]` parsing tail of
`from_hex` on a six-digit payload. -/
def parseSix (l : List Char) (role : ColorRole) : Except String SemanticColor :=
  match l with
  | [c1, c2, c3, c4, c5, c6] =>
    match parseHex2 c1 c2, parseHex2 c3 c4, parseHex2 c5 c6 with
    | some r, some g, some b => .ok (SemanticColor.make r g b role)
    | _, _, _ => .error "invalid literal for int() with base 16"
  | _ => .error "invalid literal for int() with base 16"

/-- `from_hex` after the `lstrip('#')`: dispatch on length 3/6/8, raise
`ValueError` otherwise; in the 8-digit case the alpha byte is parsed (so
bad digits raise) but then dropped — the constructor call passes only
`r, g, b`. -/
def fromHexStripped (stripped : List Char) (role : ColorRole) : Except String SemanticColor :=
  match stripped with
  | [a, b, c] => parseSix [a, a, b, b, c, c] role
  | [a, b, c, d, e, f] => parseSix [a, b, c, d, e, f] role
  | [a, b, c, d, e, f, g7, h8] =>
    match parseHex2 g7 h8 with
    | some _ => parseSix [a, b, c, d, e, f] role
    | none => .error "invalid literal for int() with base 16"
  | _ => .error ("Invalid hex color format: " ++ String.mk stripped)

/-- `SemanticColor.from_hex` on the character list: strip all leading
`#` (Python `lstrip('#')`), then dispatch on the remaining length. -/
def fromHexData (s : List Char) (role : ColorRole) : Except String SemanticColor :=
  fromHexStripped (s.dropWhile (fun c => c = '#')) role

/-- `SemanticColor.from_hex`. -/
def SemanticColor.fromHex (s : String)
    (role : ColorRole := ColorRole.primary) : Except String SemanticColor :=
  fromHexData s.data role

/-- `ColorPalette` dataclass; the colors dictionary is an association
list in insertion order. -/
structure ColorPalette where
  colors : List (ColorRole × SemanticColor)
  sourceImage : Option String := none
  extractionMethod : Option String := none
  qualityScore : Option ℚ := none
deriving DecidableEq, Repr

/-- The `required_roles` set of `ColorPalette.__post_init__`. -/
def requiredRoles : List ColorRole :=
  [ColorRole.primary, ColorRole.background, ColorRole.text]

/-- Constructing a `ColorPalette` runs `__post_init__`, which raises
`ValueError` when a required role is missing. -/
def mkColorPalette (colors : List (ColorRole × SemanticColor))
    (sourceImage : Option String := none)
    (extractionMethod : Option String := none)
    (qualityScore : Option ℚ := none) : Except String ColorPalette :=
  if requiredRoles.all (fun r => colors.any (fun pr => decide (pr.1 = r))) then
    .ok ⟨colors, sourceImage, extractionMethod, qualityScore⟩
  else
    .error "Missing required color roles"

/-- `ColorPalette.get_color` (`dict.get`). -/
def ColorPalette.getColor (p : ColorPalette) (role : ColorRole) : Option SemanticColor :=
  (p.colors.find? (fun pr => decide (pr.1 = role))).map (·.2)

/-- The dictionary returned by `ColorPalette.validate_contrast`.  After
the (raising) `get_background`/`get_text`/`get_primary` lookups succeed
the first two entries are always present; the accent entry only when an
accent color exists. -/
structure ContrastReport where
  textOnBackground : ℚ
  primaryOnBackground : ℚ
  accentOnBackground : Option ℚ
deriving DecidableEq, Repr

/-- `ColorPalette.validate_contrast`: `colors[role]` lookups raise
`KeyError` on a missing required role. -/
def validateContrast (ops : Ops) (p : ColorPalette) : Except String ContrastReport :=
  match p.getColor ColorRole.background with
  | none => .error "KeyError: background"
  | some bg =>
    match p.getColor ColorRole.text with
    | none => .error "KeyError: text"
    | some txt =>
      match p.getColor ColorRole.primary with
      | none => .error "KeyError: primary"
      | some prim =>
        .ok { textOnBackground := wcagContrast ops txt bg
              primaryOnBackground := wcagContrast ops prim bg
              accentOnBackground :=
                (p.getColor ColorRole.accent).map (fun a => wcagContrast ops a bg) }

/-- `np.mean` on a list (`sum / len`; the empty case is unreachable at
its call site because a constructed palette has at least three colors). -/
def listMean (xs : List ℚ) : ℚ := xs.sum / xs.length

/-- `np.std` (population standard deviation):
`sqrt(mean((x - mean)²))`. -/
def pyStd (ops : Ops) (xs : List ℚ) : ℚ :=
  let n : ℚ := xs.length
  let m := xs.sum / n
  ops.sqrtQ ((xs.map (fun x => (x - m) ^ 2)).sum / n)

/-- Euclidean distance of two colors in LAB space
(`_calculate_color_diversity` inner loop). -/
def labDistance (ops : Ops) (c1 c2 : SemanticColor) : ℚ :=
  let p1 := ops.rgbToLab c1.rgbFloat
  let p2 := ops.rgbToLab c2.rgbFloat
  ops.sqrtQ ((p1.1 - p2.1) ^ 2 + (p1.2.1 - p2.2.1) ^ 2 + (p1.2.2 - p2.2.2) ^ 2)

/-- All unordered-pair distances, mirroring the
`for i, c1 in enumerate(colors): for c2 in colors[i+1:]` double loop. -/
def pairDists (ops : Ops) : List SemanticColor → List ℚ
  | [] => []
  | c :: rest => rest.map (labDistance ops c) ++ pairDists ops rest

/-- `_calculate_color_diversity`. -/
def calcColorDiversity (ops : Ops) (colors : List SemanticColor) : ℚ :=
  if colors.length < 2 then 0
  else
    let ds := pairDists ops colors
    let avg := if 0 < ds.length then ds.sum / (ds.length : ℚ) else 0
    min 1 (avg / 100)

/-- `_calculate_saturation_balance`. -/
def calcSaturationBalance (ops : Ops) (colors : List SemanticColor) : ℚ :=
  let sats := colors.map saturation
  if sats.isEmpty then 0
  else min 1 (pyStd ops sats / 50)

/-- Python `max` on a nonempty list (head seed; guarded call sites). -/
def listMaxQ : List ℚ → ℚ
  | [] => 0
  | x :: xs => xs.foldl max x

/-- Python `min` on a nonempty list. -/
def listMinQ : List ℚ → ℚ
  | [] => 0
  | x :: xs => xs.foldl min x

/-- `_calculate_luminance_distribution`. -/
def calcLuminanceDistribution (ops : Ops) (colors : List SemanticColor) : ℚ :=
  let ls := colors.map (luminance ops)
  if ls.isEmpty then 0
  else
    let lumRange := listMaxQ ls - listMinQ ls
    let lumStd := pyStd ops ls
    (lumRange + min 1 (lumStd * 2)) / 2

/-- `ColorExtractor._calculate_quality_score`.  The `image` argument is
accepted (as in the source) but never read. -/
def calculateQualityScore (ops : Ops) (p : ColorPalette) (_image : PILImage) :
    Except String ℚ :=
  match validateContrast ops p with
  | .error e => .error e
  | .ok cr =>
    let colors := p.colors.map (·.2)
    let contrastScore := min 1 (cr.textOnBackground / 4.5)
    let diversityScore := calcColorDiversity ops colors
    let saturationScore := calcSaturationBalance ops colors
    let luminanceScore := calcLuminanceDistribution ops colors
    let confidenceScore := listMean (colors.map (·.confidence))
    let total := contrastScore * 0.3 + diversityScore * 0.25 + saturationScore * 0.2
      + luminanceScore * 0.15 + confidenceScore * 0.1
    .ok (min 1 (max 0 total))

/-- Sort key of `semantic_colors.sort(key=lambda c: c.luminance)`. -/
def lumLE (ops : Ops) (a b : SemanticColor) : Prop :=
  luminance ops a ≤ luminance ops b

instance (ops : Ops) : DecidableRel (lumLE ops) := fun a b =>
  inferInstanceAs (Decidable (luminance ops a ≤ luminance ops b))

/-- Python's stable sort by luminance. -/
def sortByLuminance (ops : Ops) (cs : List SemanticColor) : List SemanticColor :=
  List.insertionSort (lumLE ops) cs

/-- `[SemanticColor.from_rgb(r, g, b) for r, g, b in colors]`. -/
def toSemantic (colors : List RGBInt) : List SemanticColor :=
  colors.map (fun c => SemanticColor.fromRgb c.r c.g c.b)

/-- Tag list elements with their position; positions model Python object
identity (each `from_rgb` call creates a fresh object, so the objects of
the sorted list are pairwise distinct and identified by index). -/
def withIdx : ℕ → List α → List (ℕ × α)
  | _, [] => []
  | n, a :: as => (n, a) :: withIdx (n + 1) as

/-- The text-loop predicate `color.contrast_ratio(bg) >= 3.0`. -/
def textPred (ops : Ops) (bg : SemanticColor) : ℕ × SemanticColor → Bool :=
  fun ic => decide (3 ≤ wcagContrast ops ic.2 bg)

/-- `for color in reversed(semantic_colors): if ... : break` — the first
qualifying color from the bright end. -/
def textSearch (ops : Ops) (sortedE : List (ℕ × SemanticColor)) (bg : SemanticColor) :
    Option (ℕ × SemanticColor) :=
  sortedE.reverse.find? (textPred ops bg)

/-- The chosen text object: the loop's result, else the fallback
`semantic_colors[-1]`. -/
def textChoice (ops : Ops) (sortedE : List (ℕ × SemanticColor)) (bg : SemanticColor) :
    ℕ × SemanticColor :=
  (textSearch ops sortedE bg).getD (sortedE.getLastD (0, default))

/-- `semantic_colors[1:-1] if len(semantic_colors) > 2 else
semantic_colors[1:2]`. -/
def middleSlice (sortedE : List (ℕ × SemanticColor)) : List (ℕ × SemanticColor) :=
  if 2 < sortedE.length then (sortedE.drop 1).dropLast else (sortedE.drop 1).take 1

/-- Python `max(xs, key=f)`: first maximal element (replace only on
strictly greater). -/
def pyMaxBy (f : α → ℚ) : List α → Option α
  | [] => none
  | x :: xs => some (xs.foldl (fun best c => if f best < f c then c else best) x)

/-- The chosen primary object: most saturated middle color, else the
(unreachable given ≥ 3 colors) fallback `semantic_colors[len // 2]`. -/
def primChoice (sortedE : List (ℕ × SemanticColor)) : ℕ × SemanticColor :=
  (pyMaxBy (fun ic => saturation ic.2) (middleSlice sortedE)).getD
    (sortedE.getD (sortedE.length / 2) (0, default))

/-- Role mutation on the sorted object list.  Python mutates the `.role`
field of the background object (index 0), then the text object, then the
primary object; the later mutation wins, hence the check order. -/
def mutateAt (textI primI : ℕ) (i : ℕ) (c : SemanticColor) : SemanticColor :=
  if i = primI then { c with role := ColorRole.primary }
  else if i = textI then { c with role := ColorRole.text }
  else if i = 0 then { c with role := ColorRole.background }
  else c

/-- The background object: `semantic_colors[0]` after sorting. -/
def bgObj (sorted : List SemanticColor) : SemanticColor := sorted.headD default

/-- The background object with its role set (as it stands when the text
loop computes contrast against it — the role does not affect contrast). -/
def bgRoled (sorted : List SemanticColor) : SemanticColor :=
  { bgObj sorted with role := ColorRole.background }

/-- Index (identity) of the chosen text object. -/
def textIdx (ops : Ops) (sorted : List SemanticColor) : ℕ :=
  (textChoice ops (withIdx 0 sorted) (bgRoled sorted)).1

/-- Index (identity) of the chosen primary object. -/
def primIdx (sorted : List SemanticColor) : ℕ :=
  (primChoice (withIdx 0 sorted)).1

/-- The role-mutation of `from_colors` as a function of object index. -/
def mutFun (ops : Ops) (sorted : List SemanticColor) : ℕ → SemanticColor → SemanticColor :=
  mutateAt (textIdx ops sorted) (primIdx sorted)

/-- Final value of the background object (`color_map[BACKGROUND]`). -/
def bgFinal (ops : Ops) (sorted : List SemanticColor) : SemanticColor :=
  mutFun ops sorted 0 (bgObj sorted)

/-- Final value of the text object (`color_map[TEXT]`). -/
def textFinal (ops : Ops) (sorted : List SemanticColor) : SemanticColor :=
  mutFun ops sorted (textIdx ops sorted)
    (textChoice ops (withIdx 0 sorted) (bgRoled sorted)).2

/-- Final value of the primary object (`color_map[PRIMARY]`). -/
def primFinal (ops : Ops) (sorted : List SemanticColor) : SemanticColor :=
  mutFun ops sorted (primIdx sorted) (primChoice (withIdx 0 sorted)).2

/-- `remaining_colors = [c for c in semantic_colors if c not in
color_map.values()]` — the mutated object list filtered by dataclass
value inequality against the three assigned objects. -/
def remainingList (ops : Ops) (sorted : List SemanticColor) : List (ℕ × SemanticColor) :=
  ((withIdx 0 sorted).map (fun ic => (ic.1, mutFun ops sorted ic.1 ic.2))).filter
    (fun ic => decide (¬(ic.2 = bgFinal ops sorted ∨ ic.2 = textFinal ops sorted
      ∨ ic.2 = primFinal ops sorted)))

/-- The optional SECONDARY and ACCENT entries (`remaining_colors[0]`,
`remaining_colors[1]`). -/
def secAccList (ops : Ops) (sorted : List SemanticColor) : List (ColorRole × SemanticColor) :=
  match remainingList ops sorted with
  | [] => []
  | ic1 :: rest =>
    (ColorRole.secondary, { ic1.2 with role := ColorRole.secondary }) ::
      (match rest with
       | [] => []
       | ic2 :: _ => [(ColorRole.accent, { ic2.2 with role := ColorRole.accent })])

/-- The SURFACE color: `color_map[BACKGROUND].lighten(0.05)` re-roled. -/
def surfaceFinal (ops : Ops) (sorted : List SemanticColor) : SemanticColor :=
  { (bgFinal ops sorted).lighten 0.05 with role := ColorRole.surface }

/-- The color dictionary built by `from_colors`, in insertion order:
BACKGROUND, TEXT, PRIMARY, then SECONDARY/ACCENT when available, then
SURFACE. -/
def assignedColors (ops : Ops) (colors : List RGBInt) : List (ColorRole × SemanticColor) :=
  [(ColorRole.background, bgFinal ops (sortByLuminance ops (toSemantic colors))),
    (ColorRole.text, textFinal ops (sortByLuminance ops (toSemantic colors))),
    (ColorRole.primary, primFinal ops (sortByLuminance ops (toSemantic colors)))]
    ++ secAccList ops (sortByLuminance ops (toSemantic colors))
    ++ [(ColorRole.surface, surfaceFinal ops (sortByLuminance ops (toSemantic colors)))]

/-- `ColorPalette.from_colors`: length check, luminance sort, role
assignment with fallbacks, remaining-color filter, surface derivation,
and the final (checking) constructor call. -/
def fromColors (ops : Ops) (colors : List RGBInt)
    (sourceImage : Option String := none) : Except String ColorPalette :=
  if colors.length < 3 then .error "Need at least 3 colors to create a palette"
  else
    mkColorPalette (assignedColors ops colors) sourceImage
      (some "automatic_assignment") none

/-! ## `ColorExtractor` (`color_extractor.py`) -/

/-- `ColorExtractionMethod` constants. -/
def KMEANS_LAB : String := "kmeans_lab"

def KMEANS_RGB : String := "kmeans_rgb"

def MEDIAN_CUT : String := "median_cut"

def COLORTHIEF : String := "colorthief"

def ADAPTIVE : String := "adaptive"

/-- `ColorExtractor.__init__` configuration with its defaults. -/
structure ExtractorConfig where
  defaultMethod : String := "kmeans_lab"
  maxColors : ℕ := 8
  minColors : ℕ := 3
  resizeImage : ℕ × ℕ := (200, 200)
deriving DecidableEq, Repr

/-- `_get_default_color_count` (`dict.get(method, 6)`). -/
def defaultColorCount (method : String) : ℕ :=
  if method = KMEANS_LAB then 6
  else if method = KMEANS_RGB then 6
  else if method = MEDIAN_CUT then 8
  else if method = COLORTHIEF then 5
  else if method = ADAPTIVE then 6
  else 6

/-- `_load_and_preprocess_image`: open + RGB convert + thumbnail; any
failure is re-raised as `ValueError("Failed to load image ...")`. -/
def loadAndPreprocessImage (ops : Ops) (cfg : ExtractorConfig) (path : String) :
    Except String PILImage :=
  match ops.openRGB path with
  | .ok image => .ok (ops.thumbnailOp image cfg.resizeImage)
  | .error e => .error ("Failed to load image " ++ path ++ ": " ++ e)

/-- Running `KMeans(..., random_state=rs, ...)`: when `rs` is a fixed
integer the ambient run-to-run seed is ignored; `random_state=None`
(never used by this code) would draw on it. -/
def kmeansFit (ops : Ops) (randomState : Option ℕ) (ambient : ℕ)
    (data : List (ℚ × ℚ × ℚ)) (k : ℕ) : Except String (List (ℚ × ℚ × ℚ)) :=
  ops.kmeansCore (randomState.getD ambient) data k

/-- `np.clip(x, 0, 1)`. -/
def clip01 (x : ℚ) : ℚ := max 0 (min 1 x)

/-- `_extract_kmeans_lab`: RGB→LAB per pixel, k-means with
`random_state=42`, centers back to RGB, clip, scale, `astype(int)`. -/
def extractKmeansLab (ops : Ops) (ambient : ℕ) (image : PILImage) (numColors : ℕ) :
    Except String (List RGBInt) :=
  let labPixels := image.map
    (fun p => ops.rgbToLab ((p.r : ℚ) / 255, (p.g : ℚ) / 255, (p.b : ℚ) / 255))
  match kmeansFit ops (some 42) ambient labPixels numColors with
  | .error e => .error e
  | .ok centers => .ok (centers.map (fun c =>
      let rgbn := ops.labToRgb c
      ⟨pyTrunc (clip01 rgbn.1 * 255), pyTrunc (clip01 rgbn.2.1 * 255),
        pyTrunc (clip01 rgbn.2.2 * 255)⟩))

/-- `_extract_kmeans_rgb`: k-means on raw pixels with `random_state=42`,
centers `astype(int)`. -/
def extractKmeansRgb (ops : Ops) (ambient : ℕ) (image : PILImage) (numColors : ℕ) :
    Except String (List RGBInt) :=
  let pixels := image.map (fun p => ((p.r : ℚ), (p.g : ℚ), (p.b : ℚ)))
  match kmeansFit ops (some 42) ambient pixels numColors with
  | .error e => .error e
  | .ok centers => .ok (centers.map (fun c => ⟨pyTrunc c.1, pyTrunc c.2.1, pyTrunc c.2.2⟩))

/-- `_extract_median_cut`: quantize, read `3 * num_colors` palette
entries; a too-short palette raises `IndexError`. -/
def extractMedianCut (ops : Ops) (image : PILImage) (numColors : ℕ) :
    Except String (List RGBInt) :=
  let pal := ops.quantizePalette image numColors
  (List.range numColors).mapM (fun i =>
    match pal.get? (i * 3), pal.get? (i * 3 + 1), pal.get? (i * 3 + 2) with
    | some r, some g, some b => Except.ok (⟨r, g, b⟩ : RGBInt)
    | _, _, _ => Except.error "IndexError: palette index out of range")

/-- The body of `_extract_colorthief`'s `try` block. -/
def colorThiefAttempt (ops : Ops) (path : String) (numColors : ℕ) :
    Except String (List RGBInt) :=
  if numColors = 1 then (ops.colorThiefGetColor path).map (fun c => [c])
  else ops.colorThiefGetPalette path numColors

/-- `_extract_colorthief`: on any ColorThief failure, re-open the image
from the same path (full size — `Image.open(...).convert('RGB')`, no
thumbnail) and run median cut with the same color count. -/
def extractColorthief (ops : Ops) (path : String) (numColors : ℕ) :
    Except String (List RGBInt) :=
  match colorThiefAttempt ops path numColors with
  | .ok cs => .ok cs
  | .error _ =>
    match ops.openRGB path with
    | .ok image => extractMedianCut ops image numColors
    | .error e => .error e

/-- One iteration of `_extract_adaptive`'s loop: run the method, build a
trial palette, score it; any exception makes the attempt fail.  The
final `else` models the `NameError` on the unbound `colors` variable
that an unlisted method would hit (the loop only passes the three listed
methods). -/
def tryAdaptiveMethod (ops : Ops) (ambient : ℕ) (image : PILImage) (path : String)
    (method : String) (numColors : ℕ) : Except String (List RGBInt × ℚ) :=
  match (if method = KMEANS_LAB then extractKmeansLab ops ambient image numColors
         else if method = COLORTHIEF then extractColorthief ops path numColors
         else if method = MEDIAN_CUT then extractMedianCut ops image numColors
         else .error "NameError: colors") with
  | .error e => .error e
  | .ok colors =>
    match fromColors ops colors (some path) with
    | .error e => .error e
    | .ok temp =>
      match calculateQualityScore ops temp image with
      | .error e => .error e
      | .ok q => .ok (colors, q)

/-- The `methods_to_try` list of `_extract_adaptive`. -/
def adaptiveMethods : List (String × ℕ) := [(KMEANS_LAB, 6), (COLORTHIEF, 5), (MEDIAN_CUT, 7)]

/-- `_extract_adaptive`: collect the successful attempts in order; if
none succeeded fall back to median cut with 5 colors, else return the
first highest-quality result (Python `max(results, key=...)`). -/
def extractAdaptive (ops : Ops) (ambient : ℕ) (image : PILImage) (path : String) :
    Except String (List RGBInt) :=
  let results := adaptiveMethods.foldl (fun acc mn =>
    match tryAdaptiveMethod ops ambient image path mn.1 mn.2 with
    | .ok r => acc ++ [r]
    | .error _ => acc) []
  match results with
  | [] => extractMedianCut ops image 5
  | r :: rest => .ok (rest.foldl (fun best x => if best.2 < x.2 then x else best) r).1

/-- `ColorExtractor.extract_colors`.  Python's `method or default` and
`num_colors or default` treat `""` and `0` as falsy. -/
def extractColors (ops : Ops) (cfg : ExtractorConfig) (ambient : ℕ) (path : String)
    (methodArg : Option String) (numColorsArg : Option ℕ) : Except String ColorPalette :=
  let method := match methodArg with
    | none => cfg.defaultMethod
    | some m => if m = "" then cfg.defaultMethod else m
  let numColors := match numColorsArg with
    | none => defaultColorCount method
    | some n => if n = 0 then defaultColorCount method else n
  match loadAndPreprocessImage ops cfg path with
  | .error e => .error e
  | .ok image =>
    match (if method = KMEANS_LAB then extractKmeansLab ops ambient image numColors
           else if method = KMEANS_RGB then extractKmeansRgb ops ambient image numColors
           else if method = MEDIAN_CUT then extractMedianCut ops image numColors
           else if method = COLORTHIEF then extractColorthief ops path numColors
           else if method = ADAPTIVE then extractAdaptive ops ambient image path
           else .error ("Unknown extraction method: " ++ method)) with
    | .error e => .error e
    | .ok colors =>
      match fromColors ops colors (some path) with
      | .error e => .error e
      | .ok palette =>
        let palette := { palette with extractionMethod := some method }
        match calculateQualityScore ops palette image with
        | .error e => .error e
        | .ok qs => .ok { palette with qualityScore := some qs }

/-! ## `ThemeApplier` (`theme_applier.py`) -/

/-- `ApplicationConfig` dataclass (the `backup_path` default of
`__post_init__` is irrelevant here: the applier writes backups through
`_create_backup` into the backup directory instead). -/
structure AppConfig where
  name : String
  templatePath : String
  outputPath : String
  backupPath : Option String := none
  reloadCommand : Option String := none
  reloadDelay : ℚ := 0.5
  enabled : Bool := true
  requiresRestart : Bool := false
deriving DecidableEq, Repr

/-- `ThemeApplication` result dataclass (`errorMsg` is the Python field
`error`). -/
structure ThemeApplication where
  appName : String
  success : Bool
  outputPath : String
  backupCreated : Bool := false
  reloaded : Bool := false
  errorMsg : Option String := none
  reloadOutput : Option String := none
deriving DecidableEq, Repr

/-- The result of `subprocess.run`. -/
structure CommandResult where
  returncode : ℤ
  stdout : String
  stderr : String
deriving DecidableEq, Repr

/-- Abstracted applier collaborators: content generation (the template
engine's `render_template`, or the direct swaync CSS builder — nothing
proved here depends on the produced text) and `subprocess.run` (whose
`TimeoutExpired`/other exceptions are the `.error` case). -/
structure ApplierEnv where
  generateContent : AppConfig → ColorPalette → String → Except String String
  runCommand : String → Except String CommandResult

/-- A filesystem update (writing or copying a file). -/
def fsUpdate (fs : String → Option String) (k : String) (v : Option String) :
    String → Option String :=
  fun k' => if k' = k then v else fs k'

/-- The timestamped backup filename built by `_create_backup`:
`backup_dir / f"{app_name}_{timestamp}.backup"`. -/
def backupFileName (backupDir appName ts : String) : String :=
  backupDir ++ "/" ++ appName ++ "_" ++ ts ++ ".backup"

/-- `_apply_to_application`.  State is the file mapping; `ts` stands for
`datetime.now().strftime(...)`.  The write itself is modelled as always
succeeding (the totally-abstract filesystem cannot signal `OSError`);
every other failure path is translated. -/
def applyToApplication (env : ApplierEnv) (backupDir : String)
    (fs : String → Option String) (cfg : AppConfig) (palette : ColorPalette)
    (createBackup reloadApplication : Bool) (ts : String) :
    ThemeApplication × (String → Option String) :=
  let exists0 := (fs cfg.outputPath).isSome
  let backupCreated := createBackup && exists0
  let fs1 := if backupCreated then
      fsUpdate fs (backupFileName backupDir cfg.name ts) (fs cfg.outputPath)
    else fs
  match env.generateContent cfg palette ts with
  | .error e =>
    ({ appName := cfg.name, success := false, outputPath := cfg.outputPath,
       backupCreated := backupCreated,
       errorMsg := some ("Content generation failed: " ++ e) }, fs1)
  | .ok rendered =>
    let fs2 := fsUpdate fs1 cfg.outputPath (some rendered)
    let rl : Bool × Option String :=
      if reloadApplication then
        match cfg.reloadCommand with
        | some cmd =>
          (match env.runCommand cmd with
           | .ok res => (true, some (if res.stdout ≠ "" then res.stdout else res.stderr))
           | .error e => (false, some e))
        | none => (true, some "Live reload (automatic)")
      else (false, none)
    ({ appName := cfg.name, success := true, outputPath := cfg.outputPath,
       backupCreated := backupCreated, reloaded := rl.1, reloadOutput := rl.2 }, fs2)

/-- A file of the backup directory: `os.listdir` order is the list
order, `os.path.getmtime` is the `mtime` field. -/
structure BackupEntry where
  name : String
  mtime : ℚ
  content : String
deriving DecidableEq, Repr

/-- The applier's state as `restore_backups` sees it. -/
structure ApplierState where
  apps : List (String × AppConfig)
  backups : List BackupEntry
  files : String → Option String

/-- Python `str.startswith`. -/
def strStartsWith (s p : String) : Bool := p.data.isPrefixOf s.data

/-- Python `str.endswith`. -/
def strEndsWith (s p : String) : Bool := p.data.isSuffixOf s.data

/-- The filter of `_find_latest_backup`:
`filename.startswith(f"{app_name}_") and filename.endswith(".backup")`. -/
def backupQualifies (appName : String) (e : BackupEntry) : Bool :=
  strStartsWith e.name (appName ++ "_") && strEndsWith e.name ".backup"

/-- Modelled from the spec: the eligibility predicate as the claim about
`restore_backups` words it — "backups whose filename starts with the
application name and ends with '.backup'" (no underscore after the
name). -/
def specBackupQualifies (appName : String) (e : BackupEntry) : Bool :=
  strStartsWith e.name appName && strEndsWith e.name ".backup"

/-- Descending-mtime order of `backups.sort(key=..., reverse=True)`. -/
def mtimeDesc (a b : BackupEntry) : Prop := b.mtime ≤ a.mtime

instance : DecidableRel mtimeDesc := fun a b =>
  inferInstanceAs (Decidable (b.mtime ≤ a.mtime))

/-- `_find_latest_backup`: filter, `if not backups: return None`, stable
sort by mtime descending, take the first entry. -/
def findLatestBackup (st : ApplierState) (appName : String) : Option BackupEntry :=
  if (st.backups.filter (backupQualifies appName)).isEmpty then none
  else (List.insertionSort mtimeDesc (st.backups.filter (backupQualifies appName))).head?

/-- One iteration of the `restore_backups` loop: reports success and the
`shutil.copy2(backup_path, config.output_path)` write (if any). -/
def restoreOne (st : ApplierState) (appName : String) : Bool × Option (String × String) :=
  match List.lookup appName st.apps with
  | none => (false, none)
  | some cfg =>
    match findLatestBackup st appName with
    | none => (false, none)
    | some e => (true, some (cfg.outputPath, e.content))

/-- `restore_backups`: result flags in request order plus the filesystem
after the copies (`None` requests every configured application). -/
def restoreBackups (st : ApplierState) (applications : Option (List String)) :
    List (String × Bool) × (String → Option String) :=
  let req := applications.getD (st.apps.map (·.1))
  req.foldl (fun acc a =>
    let r := restoreOne st a
    (acc.1 ++ [(a, r.1)],
     match r.2 with
     | some pc => fsUpdate acc.2 pc.1 (some pc.2)
     | none => acc.2)) ([], st.files)

/-! ## Order instances and concrete fixtures -/

instance (ops : Ops) : IsTotal SemanticColor (lumLE ops) :=
  ⟨fun _ _ => le_total _ _⟩

instance (ops : Ops) : IsTrans SemanticColor (lumLE ops) :=
  ⟨fun _ _ _ h1 h2 => le_trans h1 h2⟩

instance : IsTotal BackupEntry mtimeDesc :=
  ⟨fun _ _ => le_total _ _⟩

instance : IsTrans BackupEntry mtimeDesc :=
  ⟨fun _ _ _ h1 h2 => le_trans h2 h1⟩

/-- A concrete operations record for evaluating theorems at an input:
`x ** 2.4` is interpreted by the (nonnegative) square, the library calls
by simple total functions, and the fallible library calls by failures
(which is what the error-handling claims need to exercise). -/
def opsZero : Ops where
  pow24 := fun q => q * q
  sqrtQ := fun q => q
  rgbToLab := fun t => t
  labToRgb := fun t => t
  kmeansCore := fun _ _ _ => .error "kmeans failed"
  colorThiefGetColor := fun _ => .error "colorthief failed"
  colorThiefGetPalette := fun _ _ => .error "colorthief failed"
  quantizePalette := fun _ _ => []
  openRGB := fun _ => .ok []
  thumbnailOp := fun img _ => img

/-- Black, red, white — a minimal valid input to `from_colors`. -/
def colorsThree : List RGBInt := [⟨0, 0, 0⟩, ⟨255, 0, 0⟩, ⟨255, 255, 255⟩]

/-- A small hand-built palette with the three required roles. -/
def paletteSmall : ColorPalette :=
  { colors := [(ColorRole.background, SemanticColor.make 0 0 0 ColorRole.background),
               (ColorRole.text, SemanticColor.make 255 255 255 ColorRole.text),
               (ColorRole.primary, SemanticColor.make 255 0 0 ColorRole.primary)] }

/-- An applier environment whose content generation succeeds. -/
def envOk : ApplierEnv where
  generateContent := fun _ _ _ => .ok "new content"
  runCommand := fun _ => .ok ⟨0, "", ""⟩

/-- A filesystem holding exactly one file `"out"`. -/
def fsOne : String → Option String := fun p => if p = "out" then some "old" else none

/-- An application configured to write to `"out"`. -/
def cfgOut : AppConfig := { name := "app", templatePath := "t", outputPath := "out" }

/-- An applier state with one application and one of its backups. -/
def stRestore : ApplierState :=
  { apps := [("app", cfgOut)]
    backups := [⟨"app_2.backup", 2, "newer"⟩]
    files := fun _ => none }

/-- An applier state whose single backup file begins with the
application name but not with `"{name}_"`. -/
def stNoUnderscore : ApplierState :=
  { apps := [("waybar", { name := "waybar", templatePath := "t", outputPath := "out" })]
    backups := [⟨"waybarX.backup", 5, "c"⟩]
    files := fun _ => none }

/-! # Theorems -/

/-! ## Clamping and hex formatting (`SemanticColor`) -/

theorem clampInt_nonneg (x : ℤ) : 0 ≤ clampInt 0 255 x := le_max_left 0 _

theorem clampInt_le (x : ℤ) : clampInt 0 255 x ≤ 255 :=
  max_le (by norm_num) (min_le_left _ _)

theorem clampQ_nonneg (x : ℚ) : 0 ≤ clampQ 0 1 x := le_max_left 0 _

theorem clampQ_le (x : ℚ) : clampQ 0 1 x ≤ 1 :=
  max_le (by norm_num) (min_le_left _ _)

theorem hexDigitChar_mem (n : ℕ) : hexDigitChar n ∈ hexDigits := by
  unfold hexDigitChar
  rcases lt_or_le n 16 with h | h
  · interval_cases n <;> decide
  · rw [List.getD_eq_default _ _ (by rw [show hexDigits.length = 16 from rfl]; exact h)]
    decide

/-- C8: after construction the channels and alpha are clamped into
`[0, 255]` and confidence into `[0.0, 1.0]`, and `hex` is `'#'` followed
by exactly six lowercase hexadecimal digits. -/
theorem make_clamped_hex_wellformed (r g b : ℤ) (role : ColorRole) (conf : ℚ) (alpha : ℤ) :
    (0 ≤ (SemanticColor.make r g b role conf alpha).r
      ∧ (SemanticColor.make r g b role conf alpha).r ≤ 255)
    ∧ (0 ≤ (SemanticColor.make r g b role conf alpha).g
      ∧ (SemanticColor.make r g b role conf alpha).g ≤ 255)
    ∧ (0 ≤ (SemanticColor.make r g b role conf alpha).b
      ∧ (SemanticColor.make r g b role conf alpha).b ≤ 255)
    ∧ (0 ≤ (SemanticColor.make r g b role conf alpha).alpha
      ∧ (SemanticColor.make r g b role conf alpha).alpha ≤ 255)
    ∧ (0 ≤ (SemanticColor.make r g b role conf alpha).confidence
      ∧ (SemanticColor.make r g b role conf alpha).confidence ≤ 1)
    ∧ (SemanticColor.make r g b role conf alpha).hexData.length = 7
    ∧ (SemanticColor.make r g b role conf alpha).hexData.head? = some '#'
    ∧ ∀ ch ∈ (SemanticColor.make r g b role conf alpha).hexData.tail, ch ∈ hexDigits := by
  refine ⟨⟨clampInt_nonneg r, clampInt_le r⟩, ⟨clampInt_nonneg g, clampInt_le g⟩,
    ⟨clampInt_nonneg b, clampInt_le b⟩, ⟨clampInt_nonneg alpha, clampInt_le alpha⟩,
    ⟨clampQ_nonneg conf, clampQ_le conf⟩, rfl, rfl, ?_⟩
  intro ch hch
  simp only [SemanticColor.hexData, pyHex2, List.tail_cons, List.cons_append,
    List.nil_append, List.mem_cons, List.not_mem_nil, or_false] at hch
  rcases hch with h | h | h | h | h | h <;> subst h <;> exact hexDigitChar_mem _

/-! ## Quality score (`_calculate_quality_score`) -/

/-- C1: on any palette holding the three required roles the quality
score is the `[0,1]`-clamped weighted sum of the five component scores
with weights 0.3/0.25/0.2/0.15/0.1, the contrast component being
`min(1, text_on_background_contrast / 4.5)`; and whatever it returns
lies in `[0.0, 1.0]`. -/
theorem qualityScore_weighted_clamped (ops : Ops) (p : ColorPalette) (image : PILImage)
    (bg txt prim : SemanticColor)
    (hbg : p.getColor ColorRole.background = some bg)
    (htxt : p.getColor ColorRole.text = some txt)
    (hprim : p.getColor ColorRole.primary = some prim) :
    calculateQualityScore ops p image =
      .ok (min 1 (max 0
        (min 1 (wcagContrast ops txt bg / 4.5) * 0.3
          + calcColorDiversity ops (p.colors.map (·.2)) * 0.25
          + calcSaturationBalance ops (p.colors.map (·.2)) * 0.2
          + calcLuminanceDistribution ops (p.colors.map (·.2)) * 0.15
          + listMean ((p.colors.map (·.2)).map (·.confidence)) * 0.1)))
    ∧ ∀ q, calculateQualityScore ops p image = .ok q → 0 ≤ q ∧ q ≤ 1 := by
  have hmain : calculateQualityScore ops p image =
      .ok (min 1 (max 0
        (min 1 (wcagContrast ops txt bg / 4.5) * 0.3
          + calcColorDiversity ops (p.colors.map (·.2)) * 0.25
          + calcSaturationBalance ops (p.colors.map (·.2)) * 0.2
          + calcLuminanceDistribution ops (p.colors.map (·.2)) * 0.15
          + listMean ((p.colors.map (·.2)).map (·.confidence)) * 0.1))) := by
    simp only [calculateQualityScore, validateContrast, hbg, htxt, hprim]
  refine ⟨hmain, ?_⟩
  intro q hq
  rw [hmain] at hq
  obtain rfl : _ = q := Except.ok.inj hq
  constructor
  · exact le_min (by norm_num) (le_max_left 0 _)
  · exact min_le_left _ _

/-- Witness for C1 at a concrete palette. -/
theorem qualityScore_weighted_clamped_witness :
    ∃ q, calculateQualityScore opsZero paletteSmall [] = .ok q ∧ 0 ≤ q ∧ q ≤ 1 := by
  obtain ⟨h1, h2⟩ := qualityScore_weighted_clamped opsZero paletteSmall []
    (SemanticColor.make 0 0 0 ColorRole.background)
    (SemanticColor.make 255 255 255 ColorRole.text)
    (SemanticColor.make 255 0 0 ColorRole.primary) rfl rfl rfl
  exact ⟨_, h1, h2 _ h1⟩

/-! ## Backup on apply (`_apply_to_application`) -/

/-- C6: a timestamped backup is made if and only if `create_backup`
holds and the output file exists; the result reports exactly that
condition; with `create_backup` false only the output path can change;
and the backup file (when made) receives the output file's previous
content — it is taken before the new content is written. -/
theorem applyBackup_iff (env : ApplierEnv) (backupDir : String)
    (fs : String → Option String) (cfg : AppConfig) (palette : ColorPalette)
    (cb ra : Bool) (ts : String) :
    ((applyToApplication env backupDir fs cfg palette cb ra ts).1.backupCreated
      = (cb && (fs cfg.outputPath).isSome))
    ∧ (cb = false → ∀ q, q ≠ cfg.outputPath →
        (applyToApplication env backupDir fs cfg palette cb ra ts).2 q = fs q)
    ∧ (cb = true → (fs cfg.outputPath).isSome = true →
        backupFileName backupDir cfg.name ts ≠ cfg.outputPath →
        (applyToApplication env backupDir fs cfg palette cb ra ts).2
          (backupFileName backupDir cfg.name ts) = fs cfg.outputPath) := by
  refine ⟨?_, ?_, ?_⟩
  · cases hgen : env.generateContent cfg palette ts <;>
      simp [applyToApplication, hgen]
  · intro hcb q hq
    subst hcb
    cases hgen : env.generateContent cfg palette ts <;>
      simp [applyToApplication, hgen, fsUpdate, hq]
  · intro hcb hfse hne
    subst hcb
    cases hgen : env.generateContent cfg palette ts <;>
      simp [applyToApplication, hgen, fsUpdate, hfse, hne]

/-- Witness for C6: with the output file present, applying with backups
on stores the old content in the timestamped backup file; with backups
off the result reports none. -/
theorem applyBackup_iff_witness :
    (applyToApplication envOk "bk" fsOne cfgOut paletteSmall true true "T").2
      (backupFileName "bk" "app" "T") = some "old"
    ∧ (applyToApplication envOk "bk" fsOne cfgOut paletteSmall false true "T").1.backupCreated
      = false := by
  constructor
  · have h := (applyBackup_iff envOk "bk" fsOne cfgOut paletteSmall true true "T").2.2
      rfl (by decide) (by decide)
    exact h.trans rfl
  · have h := (applyBackup_iff envOk "bk" fsOne cfgOut paletteSmall false true "T").1
    simpa using h

/-! ## Restore from backups (`restore_backups`, `_find_latest_backup`) -/

theorem restoreFold (st : ApplierState) (req : List String)
    (acc : List (String × Bool) × (String → Option String)) :
    (req.foldl (fun acc a =>
      let r := restoreOne st a
      (acc.1 ++ [(a, r.1)],
       match r.2 with
       | some pc => fsUpdate acc.2 pc.1 (some pc.2)
       | none => acc.2)) acc).1
      = acc.1 ++ req.map (fun a => (a, (restoreOne st a).1)) := by
  induction req generalizing acc with
  | nil => simp
  | cons a as ih => simp [ih]

theorem restoreBackups_results (st : ApplierState) (req : List String) :
    (restoreBackups st (some req)).1 = req.map (fun a => (a, (restoreOne st a).1)) := by
  have h := restoreFold st req ([], st.files)
  simpa [restoreBackups] using h

theorem restoreOne_flag (st : ApplierState) (a : String) :
    (restoreOne st a).1 = ((List.lookup a st.apps).isSome
      && !(st.backups.filter (backupQualifies a)).isEmpty) := by
  unfold restoreOne
  cases h : List.lookup a st.apps with
  | none => simp [h]
  | some cfg =>
    cases hf : findLatestBackup st a with
    | none =>
      unfold findLatestBackup at hf
      cases hq : (st.backups.filter (backupQualifies a)).isEmpty with
      | true => simp [h, hq]
      | false =>
        exfalso
        rw [hq] at hf
        simp only [Bool.false_eq_true, if_false] at hf
        have hnil := List.head?_eq_none_iff.mp hf
        have hlen := List.length_insertionSort mtimeDesc
          (st.backups.filter (backupQualifies a))
        rw [hnil] at hlen
        have hempty : st.backups.filter (backupQualifies a) = [] :=
          List.length_eq_zero.mp hlen.symm
        rw [hempty] at hq
        simp at hq
    | some e =>
      have hne : (st.backups.filter (backupQualifies a)).isEmpty = false := by
        unfold findLatestBackup at hf
        cases hq : (st.backups.filter (backupQualifies a)).isEmpty with
        | true => rw [hq] at hf; simp at hf
        | false => rfl
      simp [h, hf, hne]

theorem findLatestBackup_spec (st : ApplierState) (a : String) (e : BackupEntry)
    (hf : findLatestBackup st a = some e) :
    backupQualifies a e = true ∧ e ∈ st.backups
    ∧ ∀ e2 ∈ st.backups, backupQualifies a e2 = true → e2.mtime ≤ e.mtime := by
  unfold findLatestBackup at hf
  cases hq : (st.backups.filter (backupQualifies a)).isEmpty with
  | true => rw [hq] at hf; simp at hf
  | false =>
    rw [hq] at hf
    simp only [Bool.false_eq_true, if_false] at hf
    have hperm := List.perm_insertionSort mtimeDesc (st.backups.filter (backupQualifies a))
    have hsorted := List.sorted_insertionSort mtimeDesc (st.backups.filter (backupQualifies a))
    rcases hs : List.insertionSort mtimeDesc (st.backups.filter (backupQualifies a))
      with _ | ⟨hd, tl⟩
    · rw [hs] at hf; cases hf
    · rw [hs] at hf
      have he : hd = e := Option.some.inj hf
      rw [hs, he] at hperm hsorted
      have hmemq : e ∈ st.backups.filter (backupQualifies a) :=
        hperm.mem_iff.mp (List.mem_cons_self _ _)
      refine ⟨(List.mem_filter.mp hmemq).2, (List.mem_filter.mp hmemq).1, ?_⟩
      intro e2 he2 hq2
      have hmem2 : e2 ∈ e :: tl := by
        apply hperm.mem_iff.mpr
        exact List.mem_filter.mpr ⟨he2, hq2⟩
      rcases List.mem_cons.mp hmem2 with rfl | h2
      · exact le_refl _
      · exact (List.sorted_cons.mp hsorted).1 e2 h2

/-- C7 (amended): for every requested application `restore_backups`
reports success exactly when the application is known and a backup
whose filename starts with the application name followed by `'_'` and
ends with `.backup` exists; in that case the backup copied back to the
application's output path has the greatest modification time among the
qualifying backups. -/
theorem restoreBackups_latest (st : ApplierState) (req : List String) :
    (restoreBackups st (some req)).1
      = req.map (fun a => (a, (List.lookup a st.apps).isSome
          && !(st.backups.filter (backupQualifies a)).isEmpty))
    ∧ (∀ a cfg e, List.lookup a st.apps = some cfg →
        findLatestBackup st a = some e →
        backupQualifies a e = true
        ∧ (∀ e2 ∈ st.backups, backupQualifies a e2 = true → e2.mtime ≤ e.mtime)
        ∧ restoreOne st a = (true, some (cfg.outputPath, e.content))) := by
  constructor
  · rw [restoreBackups_results]
    simp only [restoreOne_flag]
  · intro a cfg e hl hf
    obtain ⟨h1, _, h3⟩ := findLatestBackup_spec st a e hf
    exact ⟨h1, h3, by simp [restoreOne, hl, hf]⟩

/-- Witness for C7's theorem on a concrete state: the newer of two
backups is restored, unknown applications report failure. -/
theorem restoreBackups_latest_witness :
    restoreOne stRestore "app" = (true, some ("out", "newer"))
    ∧ (restoreBackups stRestore (some ["app", "ghost"])).1
      = [("app", true), ("ghost", false)] := by
  have h := restoreBackups_latest stRestore ["app", "ghost"]
  constructor
  · have h2 := (h.2 "app" cfgOut ⟨"app_2.backup", 2, "newer"⟩ rfl rfl).2.2
    exact h2.trans (by decide)
  · exact h.1.trans (by decide)

/-- C7 counterexample: the file `waybarX.backup` starts with the
application name `waybar` and ends with `.backup`, so the claim's
eligibility filter admits it — yet `restore_backups` reports failure,
because the code filters on the prefix `"waybar_"`. -/
theorem restoreBackups_specPrefix_cex :
    specBackupQualifies "waybar" ⟨"waybarX.backup", 5, "c"⟩ = true
    ∧ findLatestBackup stNoUnderscore "waybar" = none
    ∧ (restoreBackups stNoUnderscore (some ["waybar"])).1 = [("waybar", false)] :=
  ⟨by decide, by decide, by decide⟩

/-! ## Hex parsing (`from_hex`) -/

theorem parseHexDigit_hexDigitChar (d : ℕ) (hd : d < 16) :
    parseHexDigit (hexDigitChar d) = some d := by
  interval_cases d <;> decide

theorem parseHex2_pyHex2 (n : ℤ) (h0 : 0 ≤ n) (h255 : n ≤ 255) :
    parseHex2 (hexDigitChar (n.toNat / 16)) (hexDigitChar (n.toNat % 16))
      = some n.toNat := by
  have h16 : n.toNat / 16 < 16 := by omega
  have hm : n.toNat % 16 < 16 := by omega
  unfold parseHex2
  rw [parseHexDigit_hexDigitChar _ h16, parseHexDigit_hexDigitChar _ hm]
  have hdm : 16 * (n.toNat / 16) + n.toNat % 16 = n.toNat := by omega
  simp [hdm]

theorem hexDigit_isSome_ne_hash (ch : Char) (h : (parseHexDigit ch).isSome = true) :
    ¬ ch = '#' := by
  intro heq
  subst heq
  exact absurd h (by decide)

theorem dropWhile_hash_cons_ne (a : Char) (t : List Char) (h : ¬ a = '#') :
    (a :: t).dropWhile (fun c => c = '#') = a :: t := by
  rw [List.dropWhile_cons]
  simp [h]

theorem hexDigitChar_ne_hash (n : ℕ) : ¬ hexDigitChar n = '#' := by
  intro heq
  have hmem := hexDigitChar_mem n
  rw [heq] at hmem
  exact absurd hmem (by decide)

theorem clampInt_eq_self (x : ℤ) (h0 : 0 ≤ x) (h1 : x ≤ 255) : clampInt 0 255 x = x := by
  unfold clampInt
  rw [min_eq_right h1, max_eq_right h0]

theorem parseHex2_eval (a b : Char) (va vb : ℕ)
    (ha : parseHexDigit a = some va) (hb : parseHexDigit b = some vb) :
    parseHex2 a b = some (16 * va + vb) := by
  unfold parseHex2
  rw [ha, hb]

theorem parseSix_eval (c1 c2 c3 c4 c5 c6 : Char) (role2 : ColorRole) (r g b : ℕ)
    (h12 : parseHex2 c1 c2 = some r) (h34 : parseHex2 c3 c4 = some g)
    (h56 : parseHex2 c5 c6 = some b) :
    parseSix [c1, c2, c3, c4, c5, c6] role2
      = .ok (SemanticColor.make (r : ℤ) (g : ℤ) (b : ℤ) role2) := by
  simp only [parseSix]
  rw [h12, h34, h56]

theorem fromHexData_make (x y z : ℤ) (role2 : ColorRole)
    (hx0 : 0 ≤ x) (hx : x ≤ 255) (hy0 : 0 ≤ y) (hy : y ≤ 255)
    (hz0 : 0 ≤ z) (hz : z ≤ 255) :
    fromHexData ('#' :: (pyHex2 x ++ pyHex2 y ++ pyHex2 z)) role2
      = .ok (SemanticColor.make x y z role2) := by
  unfold fromHexData
  rw [List.dropWhile_cons_of_pos (by decide)]
  simp only [pyHex2, List.cons_append, List.nil_append]
  rw [dropWhile_hash_cons_ne _ _ (hexDigitChar_ne_hash _)]
  have hstep := parseSix_eval (hexDigitChar (x.toNat / 16)) (hexDigitChar (x.toNat % 16))
    (hexDigitChar (y.toNat / 16)) (hexDigitChar (y.toNat % 16))
    (hexDigitChar (z.toNat / 16)) (hexDigitChar (z.toNat % 16)) role2 x.toNat y.toNat
    z.toNat (parseHex2_pyHex2 x hx0 hx) (parseHex2_pyHex2 y hy0 hy)
    (parseHex2_pyHex2 z hz0 hz)
  rw [Int.toNat_of_nonneg hx0, Int.toNat_of_nonneg hy0, Int.toNat_of_nonneg hz0] at hstep
  exact hstep

theorem parseSix_ok (c1 c2 c3 c4 c5 c6 : Char) (role2 : ColorRole)
    (h1 : (parseHexDigit c1).isSome = true) (h2 : (parseHexDigit c2).isSome = true)
    (h3 : (parseHexDigit c3).isSome = true) (h4 : (parseHexDigit c4).isSome = true)
    (h5 : (parseHexDigit c5).isSome = true) (h6 : (parseHexDigit c6).isSome = true) :
    ∃ cc, parseSix [c1, c2, c3, c4, c5, c6] role2 = .ok cc := by
  obtain ⟨v1, hv1⟩ := Option.isSome_iff_exists.mp h1
  obtain ⟨v2, hv2⟩ := Option.isSome_iff_exists.mp h2
  obtain ⟨v3, hv3⟩ := Option.isSome_iff_exists.mp h3
  obtain ⟨v4, hv4⟩ := Option.isSome_iff_exists.mp h4
  obtain ⟨v5, hv5⟩ := Option.isSome_iff_exists.mp h5
  obtain ⟨v6, hv6⟩ := Option.isSome_iff_exists.mp h6
  exact ⟨_, parseSix_eval c1 c2 c3 c4 c5 c6 role2 _ _ _
    (parseHex2_eval c1 c2 v1 v2 hv1 hv2) (parseHex2_eval c3 c4 v3 v4 hv3 hv4)
    (parseHex2_eval c5 c6 v5 v6 hv5 hv6)⟩

theorem fromHexStripped_ok (s : List Char) (role2 : ColorRole)
    (hhex : ∀ ch ∈ s, (parseHexDigit ch).isSome = true)
    (hlen : s.length = 3 ∨ s.length = 6 ∨ s.length = 8) :
    ∃ cc, fromHexStripped s role2 = .ok cc := by
  rcases hlen with h3 | h6 | h8
  · rcases s with _ | ⟨a1, s⟩; · simp at h3
    rcases s with _ | ⟨a2, s⟩; · simp at h3
    rcases s with _ | ⟨a3, s⟩; · simp at h3
    have hnil : s = [] := by
      simp only [List.length_cons] at h3
      exact List.length_eq_zero.mp (by omega)
    subst hnil
    exact parseSix_ok a1 a1 a2 a2 a3 a3 role2
      (hhex a1 (by simp)) (hhex a1 (by simp)) (hhex a2 (by simp))
      (hhex a2 (by simp)) (hhex a3 (by simp)) (hhex a3 (by simp))
  · rcases s with _ | ⟨a1, s⟩; · simp at h6
    rcases s with _ | ⟨a2, s⟩; · simp at h6
    rcases s with _ | ⟨a3, s⟩; · simp at h6
    rcases s with _ | ⟨a4, s⟩; · simp at h6
    rcases s with _ | ⟨a5, s⟩; · simp at h6
    rcases s with _ | ⟨a6, s⟩; · simp at h6
    have hnil : s = [] := by
      simp only [List.length_cons] at h6
      exact List.length_eq_zero.mp (by omega)
    subst hnil
    exact parseSix_ok a1 a2 a3 a4 a5 a6 role2
      (hhex a1 (by simp)) (hhex a2 (by simp)) (hhex a3 (by simp))
      (hhex a4 (by simp)) (hhex a5 (by simp)) (hhex a6 (by simp))
  · rcases s with _ | ⟨a1, s⟩; · simp at h8
    rcases s with _ | ⟨a2, s⟩; · simp at h8
    rcases s with _ | ⟨a3, s⟩; · simp at h8
    rcases s with _ | ⟨a4, s⟩; · simp at h8
    rcases s with _ | ⟨a5, s⟩; · simp at h8
    rcases s with _ | ⟨a6, s⟩; · simp at h8
    rcases s with _ | ⟨a7, s⟩; · simp at h8
    rcases s with _ | ⟨a8, s⟩; · simp at h8
    have hnil : s = [] := by
      simp only [List.length_cons] at h8
      exact List.length_eq_zero.mp (by omega)
    subst hnil
    obtain ⟨v7, hv7⟩ := Option.isSome_iff_exists.mp (hhex a7 (by simp))
    obtain ⟨v8, hv8⟩ := Option.isSome_iff_exists.mp (hhex a8 (by simp))
    have h78 := parseHex2_eval a7 a8 v7 v8 hv7 hv8
    simp only [fromHexStripped]
    rw [h78]
    exact parseSix_ok a1 a2 a3 a4 a5 a6 role2
      (hhex a1 (by simp)) (hhex a2 (by simp)) (hhex a3 (by simp))
      (hhex a4 (by simp)) (hhex a5 (by simp)) (hhex a6 (by simp))

theorem fromHexStripped_badlen (st : List Char) (role2 : ColorRole)
    (hlen : ¬(st.length = 3 ∨ st.length = 6 ∨ st.length = 8)) :
    ∃ e, fromHexStripped st role2 = .error e := by
  rcases st with _ | ⟨a1, _ | ⟨a2, _ | ⟨a3, _ | ⟨a4, _ | ⟨a5, _ | ⟨a6, _ | ⟨a7, _ |
    ⟨a8, _ | ⟨a9, rest⟩⟩⟩⟩⟩⟩⟩⟩⟩ <;>
    first
      | exact ⟨_, rfl⟩
      | simp at hlen

/-- C10: round trip — parsing the `hex` of any constructed color yields
the same `r`, `g`, `b`; `from_hex` accepts hex-digit payloads of length
3, 6 and 8, with or without a leading `'#'`, and raises `ValueError` for
every other (stripped) length. -/
theorem fromHex_roundtrip_lengths (r g b : ℤ) (role role2 : ColorRole) (conf : ℚ)
    (alpha : ℤ) (s : List Char) :
    (∃ c2, fromHexData (SemanticColor.make r g b role conf alpha).hexData role2 = .ok c2
      ∧ c2.r = (SemanticColor.make r g b role conf alpha).r
      ∧ c2.g = (SemanticColor.make r g b role conf alpha).g
      ∧ c2.b = (SemanticColor.make r g b role conf alpha).b)
    ∧ ((∀ ch ∈ s, (parseHexDigit ch).isSome = true) →
        (s.length = 3 ∨ s.length = 6 ∨ s.length = 8) →
        (∃ c2, fromHexData s role2 = .ok c2)
          ∧ ∃ c2, fromHexData ('#' :: s) role2 = .ok c2)
    ∧ (¬((s.dropWhile (fun c => c = '#')).length = 3
          ∨ (s.dropWhile (fun c => c = '#')).length = 6
          ∨ (s.dropWhile (fun c => c = '#')).length = 8) →
        ∃ e, fromHexData s role2 = .error e) := by
  refine ⟨?_, ?_, ?_⟩
  · refine ⟨SemanticColor.make (clampInt 0 255 r) (clampInt 0 255 g)
      (clampInt 0 255 b) role2, ?_, ?_, ?_, ?_⟩
    · exact fromHexData_make (clampInt 0 255 r) (clampInt 0 255 g) (clampInt 0 255 b)
        role2 (clampInt_nonneg r) (clampInt_le r) (clampInt_nonneg g) (clampInt_le g)
        (clampInt_nonneg b) (clampInt_le b)
    · exact clampInt_eq_self _ (clampInt_nonneg r) (clampInt_le r)
    · exact clampInt_eq_self _ (clampInt_nonneg g) (clampInt_le g)
    · exact clampInt_eq_self _ (clampInt_nonneg b) (clampInt_le b)
  · intro hhex hlen
    have hs : ∀ ch ∈ s, ¬ ch = '#' := fun ch hch => hexDigit_isSome_ne_hash ch (hhex ch hch)
    have hdrop : s.dropWhile (fun c => c = '#') = s := by
      cases s with
      | nil => rfl
      | cons a t => exact dropWhile_hash_cons_ne a t (hs a (List.mem_cons_self a t))
    have hdrop2 : ('#' :: s).dropWhile (fun c => c = '#') = s := by
      rw [List.dropWhile_cons_of_pos (by decide)]
      exact hdrop
    constructor
    · rw [fromHexData, hdrop]
      exact fromHexStripped_ok s role2 hhex hlen
    · rw [fromHexData, hdrop2]
      exact fromHexStripped_ok s role2 hhex hlen
  · intro hlen
    rw [fromHexData]
    exact fromHexStripped_badlen _ role2 hlen

/-- Witness for C10 at concrete inputs. -/
theorem fromHex_roundtrip_lengths_witness :
    (∃ c2, fromHexData ((SemanticColor.make 300 (-5) 17 ColorRole.accent
          (1/2) 9).hexData) ColorRole.primary = .ok c2
      ∧ c2.r = (SemanticColor.make 300 (-5) 17 ColorRole.accent (1/2) 9).r
      ∧ c2.g = (SemanticColor.make 300 (-5) 17 ColorRole.accent (1/2) 9).g
      ∧ c2.b = (SemanticColor.make 300 (-5) 17 ColorRole.accent (1/2) 9).b)
    ∧ ((∃ c2, fromHexData ['a', 'b', 'c'] ColorRole.primary = .ok c2)
        ∧ ∃ c2, fromHexData ('#' :: ['a', 'b', 'c']) ColorRole.primary = .ok c2)
    ∧ ∃ e, fromHexData ['a', 'b', 'c', 'd'] ColorRole.primary = .error e := by
  refine ⟨(fromHex_roundtrip_lengths 300 (-5) 17 ColorRole.accent ColorRole.primary
      (1/2) 9 []).1, ?_, ?_⟩
  · exact (fromHex_roundtrip_lengths 300 (-5) 17 ColorRole.accent ColorRole.primary
      (1/2) 9 ['a', 'b', 'c']).2.1 (by decide) (by decide)
  · exact (fromHex_roundtrip_lengths 300 (-5) 17 ColorRole.accent ColorRole.primary
      (1/2) 9 ['a', 'b', 'c', 'd']).2.2 (by decide)

/-! ## Palette construction invariants (`__post_init__`, `from_colors`) -/

theorem mkColorPalette_assigned (ops : Ops) (colors : List RGBInt)
    (si em : Option String) (qs : Option ℚ) :
    mkColorPalette (assignedColors ops colors) si em qs
      = .ok ⟨assignedColors ops colors, si, em, qs⟩ := rfl

theorem fromColors_ok (ops : Ops) (colors : List RGBInt) (si : Option String)
    (h3 : 3 ≤ colors.length) :
    fromColors ops colors si
      = .ok ⟨assignedColors ops colors, si, some "automatic_assignment", none⟩ := by
  unfold fromColors
  rw [if_neg (by omega)]
  exact mkColorPalette_assigned ops colors si _ _

theorem secAccList_shapes (ops : Ops) (sorted : List SemanticColor) :
    secAccList ops sorted = []
    ∨ (∃ c1, secAccList ops sorted = [(ColorRole.secondary, c1)])
    ∨ ∃ c1 c2, secAccList ops sorted
        = [(ColorRole.secondary, c1), (ColorRole.accent, c2)] := by
  unfold secAccList
  rcases h : remainingList ops sorted with _ | ⟨ic1, _ | ⟨ic2, rest⟩⟩
  · exact Or.inl rfl
  · exact Or.inr (Or.inl ⟨_, rfl⟩)
  · exact Or.inr (Or.inr ⟨_, _, rfl⟩)

theorem getColor_assigned_surface (ops : Ops) (colors : List RGBInt)
    (si em : Option String) (qs : Option ℚ) :
    (⟨assignedColors ops colors, si, em, qs⟩ : ColorPalette).getColor ColorRole.surface
      = some (surfaceFinal ops (sortByLuminance ops (toSemantic colors))) := by
  unfold ColorPalette.getColor assignedColors
  rcases secAccList_shapes ops (sortByLuminance ops (toSemantic colors)) with h | ⟨c1, h⟩
    | ⟨c1, c2, h⟩ <;> rw [h] <;> rfl

/-- C5: a constructed `ColorPalette` always holds BACKGROUND, TEXT and
PRIMARY (construction fails when one is missing); `from_colors`
additionally yields a SURFACE entry whenever it succeeds, and fails with
`ValueError` on every list of fewer than 3 colors. -/
theorem palette_required_roles (ops : Ops) (colors : List RGBInt)
    (cl : List (ColorRole × SemanticColor)) (si em : Option String) (qs : Option ℚ) :
    (∀ p, mkColorPalette cl si em qs = .ok p →
      (p.getColor ColorRole.background).isSome = true
      ∧ (p.getColor ColorRole.text).isSome = true
      ∧ (p.getColor ColorRole.primary).isSome = true)
    ∧ ((cl.any (fun pr => decide (pr.1 = ColorRole.background)) = false
        ∨ cl.any (fun pr => decide (pr.1 = ColorRole.text)) = false
        ∨ cl.any (fun pr => decide (pr.1 = ColorRole.primary)) = false) →
        ∃ e, mkColorPalette cl si em qs = .error e)
    ∧ (3 ≤ colors.length →
        ∃ p, fromColors ops colors none = .ok p
          ∧ (p.getColor ColorRole.background).isSome = true
          ∧ (p.getColor ColorRole.text).isSome = true
          ∧ (p.getColor ColorRole.primary).isSome = true
          ∧ (p.getColor ColorRole.surface).isSome = true)
    ∧ (colors.length < 3 →
        fromColors ops colors none = .error "Need at least 3 colors to create a palette") := by
  refine ⟨?_, ?_, ?_, ?_⟩
  · intro p hp
    unfold mkColorPalette at hp
    split at hp
    case isTrue hc =>
      obtain rfl : (⟨cl, si, em, qs⟩ : ColorPalette) = p := Except.ok.inj hp
      simp only [requiredRoles, List.all_cons, List.all_nil, Bool.and_eq_true,
        and_true] at hc
      obtain ⟨hprim, hbg, htxt⟩ := hc
      have key : ∀ r : ColorRole, (cl.any fun pr => decide (pr.1 = r)) = true →
          ((⟨cl, si, em, qs⟩ : ColorPalette).getColor r).isSome = true := by
        intro r hr
        have hs := List.find?_isSome.mpr (List.any_eq_true.mp hr)
        unfold ColorPalette.getColor
        rcases hfind : List.find? (fun pr => decide (pr.1 = r)) cl with _ | pr
        · rw [hfind] at hs
          simp at hs
        · simp [hfind]
      exact ⟨key _ hbg, key _ htxt, key _ hprim⟩
    case isFalse hc => cases hp
  · intro h
    unfold mkColorPalette
    split
    case isTrue hc =>
      exfalso
      simp only [requiredRoles, List.all_cons, List.all_nil, Bool.and_eq_true,
        and_true] at hc
      obtain ⟨hprim, hbg, htxt⟩ := hc
      rcases h with h | h | h <;> simp [h] at hbg htxt hprim
    case isFalse hc => exact ⟨_, rfl⟩
  · intro h3
    refine ⟨_, fromColors_ok ops colors none h3, rfl, rfl, rfl, ?_⟩
    rw [getColor_assigned_surface]
    rfl
  · intro h
    unfold fromColors
    rw [if_pos h]

/-- Witness for C5: success on three colors with all four roles present,
failure on a missing-role dictionary and on a too-short list. -/
theorem palette_required_roles_witness :
    (∃ p, fromColors opsZero colorsThree none = .ok p
      ∧ (p.getColor ColorRole.background).isSome = true
      ∧ (p.getColor ColorRole.text).isSome = true
      ∧ (p.getColor ColorRole.primary).isSome = true
      ∧ (p.getColor ColorRole.surface).isSome = true)
    ∧ (∃ e, mkColorPalette [] none none none = .error e)
    ∧ fromColors opsZero [⟨0, 0, 0⟩] none
        = .error "Need at least 3 colors to create a palette" := by
  refine ⟨(palette_required_roles opsZero colorsThree [] none none none).2.2.1 (by decide),
    (palette_required_roles opsZero colorsThree [] none none none).2.1
      (Or.inl (by decide)),
    (palette_required_roles opsZero [⟨0, 0, 0⟩] [] none none none).2.2.2 (by decide)⟩

/-! ## Extraction fallbacks (`_extract_colorthief`, `_extract_adaptive`) -/

/-- C4: when the ColorThief call raises, `_extract_colorthief` runs
median cut on the image re-opened from the same path with the same color
count; when all three adaptive attempts fail, `_extract_adaptive`
returns median cut with 5 colors instead of propagating the error. -/
theorem fallback_simpler_method (ops : Ops) (ambient : ℕ) (image : PILImage)
    (path : String) (n : ℕ) :
    ((∃ e, colorThiefAttempt ops path n = .error e) →
      ∀ img, ops.openRGB path = .ok img →
        extractColorthief ops path n = extractMedianCut ops img n)
    ∧ ((∃ e1, tryAdaptiveMethod ops ambient image path KMEANS_LAB 6 = .error e1) →
       (∃ e2, tryAdaptiveMethod ops ambient image path COLORTHIEF 5 = .error e2) →
       (∃ e3, tryAdaptiveMethod ops ambient image path MEDIAN_CUT 7 = .error e3) →
        extractAdaptive ops ambient image path = extractMedianCut ops image 5) := by
  constructor
  · rintro ⟨e, he⟩ img ho
    unfold extractColorthief
    rw [he, ho]
  · rintro ⟨e1, h1⟩ ⟨e2, h2⟩ ⟨e3, h3⟩
    unfold extractAdaptive adaptiveMethods
    simp only [List.foldl_cons, List.foldl_nil, h1, h2, h3]

/-- Witness for C4: with failing k-means, ColorThief and quantization,
both fallbacks are exercised at a concrete input. -/
theorem fallback_simpler_method_witness :
    extractColorthief opsZero "img" 3 = extractMedianCut opsZero [] 3
    ∧ extractAdaptive opsZero 0 [] "img" = extractMedianCut opsZero [] 5 := by
  have h := fallback_simpler_method opsZero 0 [] "img" 3
  exact ⟨h.1 ⟨_, rfl⟩ [] rfl, h.2 ⟨_, rfl⟩ ⟨_, rfl⟩ ⟨_, rfl⟩⟩

/-! ## Determinism of extraction (`extract_colors`) -/

/-- C3: `extract_colors` does not depend on the ambient run-to-run seed
— the k-means calls pass the fixed `random_state=42`, and the median-cut,
ColorThief and adaptive paths consult no run-dependent state — so two
runs on the same image, method and color count return the same palette. -/
theorem extraction_deterministic (ops : Ops) (cfg : ExtractorConfig) (path : String)
    (methodArg : Option String) (numColorsArg : Option ℕ) (a1 a2 : ℕ) :
    extractColors ops cfg a1 path methodArg numColorsArg
      = extractColors ops cfg a2 path methodArg numColorsArg := by
  have hk : ∀ img n, extractKmeansLab ops a1 img n = extractKmeansLab ops a2 img n := by
    intro img n
    unfold extractKmeansLab kmeansFit
    simp
  have hr : ∀ img n, extractKmeansRgb ops a1 img n = extractKmeansRgb ops a2 img n := by
    intro img n
    unfold extractKmeansRgb kmeansFit
    simp
  have ht : ∀ img m n, tryAdaptiveMethod ops a1 img path m n
      = tryAdaptiveMethod ops a2 img path m n := by
    intro img m n
    unfold tryAdaptiveMethod
    rw [hk img n]
  have ha : ∀ img, extractAdaptive ops a1 img path = extractAdaptive ops a2 img path := by
    intro img
    unfold extractAdaptive
    simp only [ht]
  unfold extractColors
  simp only [hk, hr, ha]

/-! ## Role assignment (`from_colors`): index and order bookkeeping -/

theorem withIdx_length (n : ℕ) (l : List α) : (withIdx n l).length = l.length := by
  induction l generalizing n with
  | nil => rfl
  | cons a t ih => simp [withIdx, ih]

theorem withIdx_concat (n : ℕ) (l : List α) (a : α) :
    withIdx n (l ++ [a]) = withIdx n l ++ [(n + l.length, a)] := by
  induction l generalizing n with
  | nil => simp [withIdx]
  | cons b t ih =>
    show (n, b) :: withIdx (n + 1) (t ++ [a])
      = ((n, b) :: withIdx (n + 1) t) ++ [(n + (b :: t).length, a)]
    rw [ih]
    have hn : n + 1 + t.length = n + (b :: t).length := by
      simp [List.length_cons]
      omega
    rw [hn]
    rfl

theorem mem_withIdx_value {α : Type} {p : ℕ × α} :
    ∀ (n : ℕ) (l : List α), p ∈ withIdx n l → p.2 ∈ l ∧ n ≤ p.1 ∧ p.1 < n + l.length := by
  intro n l
  induction l generalizing n with
  | nil => intro hp; cases hp
  | cons a t ih =>
    intro hp
    rcases List.mem_cons.mp hp with rfl | hp2
    · refine ⟨List.mem_cons_self _ _, le_refl _, ?_⟩
      simp
    · obtain ⟨hv, hlo, hhi⟩ := ih (n + 1) hp2
      refine ⟨List.mem_cons_of_mem _ hv, by omega, ?_⟩
      simp only [List.length_cons]
      omega

theorem mem_withIdx_of_mem {α : Type} {c : α} :
    ∀ (n : ℕ) (l : List α), c ∈ l → ∃ j, (j, c) ∈ withIdx n l := by
  intro n l
  induction l generalizing n with
  | nil => intro hc; cases hc
  | cons a t ih =>
    intro hc
    rcases List.mem_cons.mp hc with rfl | hc2
    · exact ⟨n, List.mem_cons_self _ _⟩
    · obtain ⟨j, hj⟩ := ih (n + 1) hc2
      exact ⟨j, List.mem_cons_of_mem _ hj⟩

theorem withIdx_dropLast (n : ℕ) (l : List α) :
    (withIdx n l).dropLast = withIdx n l.dropLast := by
  induction l using List.reverseRecOn with
  | nil => rfl
  | append_singleton l a ih =>
    rw [withIdx_concat, List.dropLast_concat, List.dropLast_concat]

/-- Python `max(xs, key=f)` as a fold: the result is a list member whose
key is maximal. -/
theorem pyMaxBy_fold_spec {α : Type} (f : α → ℚ) (xs : List α) (x : α) :
    (xs.foldl (fun best c => if f best < f c then c else best) x) ∈ x :: xs
    ∧ ∀ y ∈ x :: xs, f y ≤ f (xs.foldl (fun best c => if f best < f c then c else best) x) := by
  induction xs generalizing x with
  | nil =>
    refine ⟨List.mem_cons_self _ _, ?_⟩
    intro y hy
    rcases List.mem_cons.mp hy with rfl | hy2
    · exact le_refl _
    · cases hy2
  | cons a as ih =>
    by_cases hfa : f x < f a
    · simp only [List.foldl_cons, if_pos hfa]
      have step := ih a
      constructor
      · rcases List.mem_cons.mp step.1 with h | h
        · rw [h]
          exact List.mem_cons_of_mem _ (List.mem_cons_self _ _)
        · exact List.mem_cons_of_mem _ (List.mem_cons_of_mem _ h)
      · intro y hy
        rcases List.mem_cons.mp hy with rfl | hy2
        · exact le_trans (le_of_lt hfa) (step.2 a (List.mem_cons_self _ _))
        · exact step.2 y hy2
    · simp only [List.foldl_cons, if_neg hfa]
      have step := ih x
      constructor
      · rcases List.mem_cons.mp step.1 with h | h
        · rw [h]
          exact List.mem_cons_self _ _
        · exact List.mem_cons_of_mem _ (List.mem_cons_of_mem _ h)
      · intro y hy
        rcases List.mem_cons.mp hy with rfl | hy2
        · exact step.2 y (List.mem_cons_self _ _)
        · rcases List.mem_cons.mp hy2 with rfl | hy3
          · exact le_trans (le_of_not_lt hfa) (step.2 x (List.mem_cons_self _ _))
          · exact step.2 y (List.mem_cons_of_mem _ hy3)

theorem luminance_roleSet (ops : Ops) (c : SemanticColor) (r : ColorRole) :
    luminance ops { c with role := r } = luminance ops c := rfl

theorem saturation_roleSet (c : SemanticColor) (r : ColorRole) :
    saturation { c with role := r } = saturation c := rfl

theorem wcagContrast_roleSet (ops : Ops) (a b : SemanticColor) (r : ColorRole) :
    wcagContrast ops { a with role := r } b = wcagContrast ops a b := rfl

theorem gammaCorrect_nonneg (ops : Ops) (hpow : ∀ q, 0 ≤ ops.pow24 q) (x : ℚ)
    (hx : 0 ≤ x) : 0 ≤ gammaCorrect ops x := by
  unfold gammaCorrect
  split
  · exact div_nonneg hx (by norm_num)
  · exact hpow _

theorem luminance_nonneg (ops : Ops) (hpow : ∀ q, 0 ≤ ops.pow24 q)
    (c : SemanticColor) (h1 : 0 ≤ c.r) (h2 : 0 ≤ c.g) (h3 : 0 ≤ c.b) :
    0 ≤ luminance ops c := by
  have g1 := gammaCorrect_nonneg ops hpow ((c.r : ℚ) / 255)
    (div_nonneg (by exact_mod_cast h1) (by norm_num))
  have g2 := gammaCorrect_nonneg ops hpow ((c.g : ℚ) / 255)
    (div_nonneg (by exact_mod_cast h2) (by norm_num))
  have g3 := gammaCorrect_nonneg ops hpow ((c.b : ℚ) / 255)
    (div_nonneg (by exact_mod_cast h3) (by norm_num))
  unfold luminance
  have t1 : (0 : ℚ) ≤ 0.2126 * gammaCorrect ops ((c.r : ℚ) / 255) :=
    mul_nonneg (by norm_num) g1
  have t2 : (0 : ℚ) ≤ 0.7152 * gammaCorrect ops ((c.g : ℚ) / 255) :=
    mul_nonneg (by norm_num) g2
  have t3 : (0 : ℚ) ≤ 0.0722 * gammaCorrect ops ((c.b : ℚ) / 255) :=
    mul_nonneg (by norm_num) g3
  linarith

/-- Contrast against the darkest color grows with luminance. -/
theorem contrast_mono (ops : Ops) {b c d : SemanticColor}
    (hb : 0 ≤ luminance ops b)
    (hbc : luminance ops b ≤ luminance ops c)
    (hcd : luminance ops c ≤ luminance ops d) :
    wcagContrast ops c b ≤ wcagContrast ops d b := by
  unfold wcagContrast
  rw [max_eq_left hbc, min_eq_right hbc, max_eq_left (le_trans hbc hcd),
    min_eq_right (le_trans hbc hcd)]
  have hpos : (0 : ℚ) < luminance ops b + 0.05 := by
    have : (0 : ℚ) < 0.05 := by norm_num
    linarith
  exact (div_le_div_iff_of_pos_right hpos).mpr (by linarith)

theorem sorted_head_min (ops : Ops) {s0 : SemanticColor} {stail : List SemanticColor}
    (h : List.Sorted (lumLE ops) (s0 :: stail)) :
    ∀ c ∈ s0 :: stail, luminance ops s0 ≤ luminance ops c := by
  intro c hc
  rcases List.mem_cons.mp hc with rfl | hc2
  · exact le_refl _
  · exact (List.sorted_cons.mp h).1 c hc2

theorem getLast?_eq_getLastD {α : Type} {l : List α} (hne : l ≠ []) (d : α) :
    l.getLast? = some (l.getLastD d) := by
  rw [List.getLastD_eq_getLast?, List.getLast?_eq_getLast l hne]
  rfl

theorem getLastD_mem {α : Type} {l : List α} (hne : l ≠ []) (d : α) :
    l.getLastD d ∈ l := by
  have h := getLast?_eq_getLastD hne d
  rw [List.getLast?_eq_getLast l hne] at h
  rw [← Option.some.inj h]
  exact List.getLast_mem hne

theorem sorted_le_getLast? (ops : Ops) :
    ∀ (l : List SemanticColor), List.Sorted (lumLE ops) l →
      ∀ c ∈ l, ∀ x, l.getLast? = some x → luminance ops c ≤ luminance ops x := by
  intro l
  induction l with
  | nil => intro _ c hc; cases hc
  | cons a t ih =>
    intro h c hc x hx
    cases t with
    | nil =>
      have hca : c = a := List.mem_singleton.mp hc
      have hxa : a = x := by simpa using hx
      rw [hca, ← hxa]
    | cons b t2 =>
      have hx2 : (b :: t2).getLast? = some x := by
        rwa [List.getLast?_cons_cons] at hx
      rcases List.mem_cons.mp hc with rfl | hc2
      · have hxd : x = (b :: t2).getLastD default := by
          have := getLast?_eq_getLastD (l := b :: t2) (by simp) default
          rw [this] at hx2
          exact Option.some.inj hx2.symm
        have hxmem : x ∈ b :: t2 := by
          rw [hxd]
          exact getLastD_mem (by simp) default
        exact (List.sorted_cons.mp h).1 x hxmem
      · exact ih (List.sorted_cons.mp h).2 c hc2 x hx2

theorem sorted_le_getLastD (ops : Ops) {l : List SemanticColor}
    (h : List.Sorted (lumLE ops) l) (hne : l ≠ []) :
    ∀ c ∈ l, luminance ops c ≤ luminance ops (l.getLastD default) :=
  fun c hc => sorted_le_getLast? ops l h c hc _ (getLast?_eq_getLastD hne _)

theorem headD_mem {α : Type} {l : List α} (hne : l ≠ []) (d : α) : l.headD d ∈ l := by
  cases l with
  | nil => exact absurd rfl hne
  | cons a t => exact List.mem_cons_self _ _

theorem sortByLuminance_perm (ops : Ops) (cs : List SemanticColor) :
    (sortByLuminance ops cs).Perm cs :=
  List.perm_insertionSort _ _

theorem sortByLuminance_sorted (ops : Ops) (cs : List SemanticColor) :
    List.Sorted (lumLE ops) (sortByLuminance ops cs) :=
  List.sorted_insertionSort _ _

theorem toSemantic_chan (colors : List RGBInt) :
    ∀ c ∈ toSemantic colors, 0 ≤ c.r ∧ 0 ≤ c.g ∧ 0 ≤ c.b := by
  intro c hc
  unfold toSemantic at hc
  obtain ⟨p, _, rfl⟩ := List.mem_map.mp hc
  exact ⟨clampInt_nonneg _, clampInt_nonneg _, clampInt_nonneg _⟩

theorem sorted_chan (ops : Ops) (colors : List RGBInt) :
    ∀ c ∈ sortByLuminance ops (toSemantic colors), 0 ≤ c.r ∧ 0 ≤ c.g ∧ 0 ≤ c.b :=
  fun c hc => toSemantic_chan colors c ((sortByLuminance_perm ops _).mem_iff.mp hc)

theorem bgObj_min (ops : Ops) {sorted : List SemanticColor}
    (hs : List.Sorted (lumLE ops) sorted) (hne : sorted ≠ []) :
    ∀ c ∈ sorted, luminance ops (bgObj sorted) ≤ luminance ops c := by
  obtain ⟨s0, st, rfl⟩ := List.exists_cons_of_ne_nil hne
  exact sorted_head_min ops hs

/-- The text loop always lands on the brightest (last) object: if the
last object fails the contrast test then, contrast being monotone in
luminance over a list whose first element realizes the minimum, every
object fails and the fallback also returns the last object. -/
theorem textChoice_eq (ops : Ops) (sorted : List SemanticColor) (bg : SemanticColor)
    (hs : List.Sorted (lumLE ops) sorted) (hne : sorted ≠ [])
    (hbg0 : 0 ≤ luminance ops bg)
    (hbgmin : ∀ c ∈ sorted, luminance ops bg ≤ luminance ops c) :
    textChoice ops (withIdx 0 sorted) bg
      = (sorted.length - 1, sorted.getLastD default) := by
  obtain ⟨init, lastv, hdec⟩ : ∃ init lastv, sorted = init ++ [lastv] :=
    ⟨sorted.dropLast, sorted.getLast hne, (List.dropLast_append_getLast hne).symm⟩
  have hlastD : sorted.getLastD default = lastv := by
    rw [hdec, List.getLastD_concat]
  have hlenE : sorted.length - 1 = init.length := by
    rw [hdec]
    simp
  have hwi : withIdx 0 sorted = withIdx 0 init ++ [(init.length, lastv)] := by
    rw [hdec, withIdx_concat, Nat.zero_add]
  have hrev : (withIdx 0 sorted).reverse
      = (init.length, lastv) :: (withIdx 0 init).reverse := by
    rw [hwi]
    simp
  unfold textChoice textSearch
  rw [hrev]
  by_cases hpred : textPred ops bg (init.length, lastv) = true
  · rw [List.find?_cons_of_pos _ hpred]
    rw [hlastD, hlenE]
    rfl
  · rw [List.find?_cons_of_neg _ hpred]
    have hnone : List.find? (textPred ops bg) (withIdx 0 init).reverse = none := by
      rw [List.find?_eq_none]
      intro p hp
      have hp2 : p ∈ withIdx 0 init := List.mem_reverse.mp hp
      have hval : p.2 ∈ init := (mem_withIdx_value 0 init hp2).1
      have hvs : p.2 ∈ sorted := by
        rw [hdec]
        exact List.mem_append_left _ hval
      have hle : luminance ops p.2 ≤ luminance ops lastv := by
        have h := sorted_le_getLastD ops hs hne p.2 hvs
        rwa [hlastD] at h
      have hc1 : wcagContrast ops p.2 bg ≤ wcagContrast ops lastv bg :=
        contrast_mono ops hbg0 (hbgmin p.2 hvs) hle
      unfold textPred at hpred ⊢
      simp only [decide_eq_true_eq] at hpred ⊢
      intro hge
      exact hpred (le_trans hge hc1)
    rw [hnone]
    have hlast2 : (withIdx 0 sorted).getLastD (0, default) = (init.length, lastv) := by
      rw [hwi, List.getLastD_concat]
    show (withIdx 0 sorted).getLastD (0, default) = _
    rw [hlast2, hlastD, hlenE]

theorem middleSlice_eq (sorted : List SemanticColor) (h3 : 3 ≤ sorted.length) :
    middleSlice (withIdx 0 sorted) = withIdx 1 ((sorted.drop 1).dropLast) := by
  unfold middleSlice
  rw [withIdx_length, if_pos (by omega)]
  cases sorted with
  | nil => simp at h3
  | cons s0 st =>
    show ((withIdx 0 (s0 :: st)).drop 1).dropLast = _
    rw [show withIdx 0 (s0 :: st) = (0, s0) :: withIdx 1 st from rfl]
    simp only [List.drop_succ_cons, List.drop_zero]
    rw [withIdx_dropLast]

theorem primChoice_spec (sorted : List SemanticColor) (h3 : 3 ≤ sorted.length) :
    primChoice (withIdx 0 sorted) ∈ withIdx 1 ((sorted.drop 1).dropLast)
    ∧ ∀ y ∈ withIdx 1 ((sorted.drop 1).dropLast),
        saturation y.2 ≤ saturation (primChoice (withIdx 0 sorted)).2 := by
  have hm := middleSlice_eq sorted h3
  have hlen : ((sorted.drop 1).dropLast).length = sorted.length - 2 := by
    rw [List.length_dropLast, List.length_drop]
    omega
  rcases hmid : withIdx 1 ((sorted.drop 1).dropLast) with _ | ⟨m0, ms⟩
  · exfalso
    have hwl := withIdx_length 1 ((sorted.drop 1).dropLast)
    rw [hmid] at hwl
    simp only [List.length_nil] at hwl
    omega
  · have hspec := pyMaxBy_fold_spec (fun ic : ℕ × SemanticColor => saturation ic.2) ms m0
    unfold primChoice
    rw [hm, hmid]
    simp only [pyMaxBy, Option.getD_some]
    constructor
    · exact hspec.1
    · intro y hy
      exact hspec.2 y hy

/-- The chosen indices: the text object is the last of the sorted list,
the primary object a strictly interior one. -/
theorem assignment_indices (ops : Ops) (sorted : List SemanticColor)
    (hs : List.Sorted (lumLE ops) sorted) (h3 : 3 ≤ sorted.length)
    (hchan : ∀ c ∈ sorted, 0 ≤ c.r ∧ 0 ≤ c.g ∧ 0 ≤ c.b)
    (hpow : ∀ q, 0 ≤ ops.pow24 q) :
    textIdx ops sorted = sorted.length - 1
    ∧ (textChoice ops (withIdx 0 sorted) (bgRoled sorted)).2 = sorted.getLastD default
    ∧ 1 ≤ primIdx sorted ∧ primIdx sorted ≤ sorted.length - 2
    ∧ (primChoice (withIdx 0 sorted)).2 ∈ (sorted.drop 1).dropLast
    ∧ ∀ c ∈ (sorted.drop 1).dropLast,
        saturation c ≤ saturation (primChoice (withIdx 0 sorted)).2 := by
  have hne : sorted ≠ [] := by
    intro h
    rw [h] at h3
    simp at h3
  have hbg0 : 0 ≤ luminance ops (bgRoled sorted) := by
    unfold bgRoled
    rw [luminance_roleSet]
    have hmem : bgObj sorted ∈ sorted := headD_mem hne default
    exact luminance_nonneg ops hpow _ (hchan _ hmem).1 (hchan _ hmem).2.1
      (hchan _ hmem).2.2
  have hbgmin : ∀ c ∈ sorted, luminance ops (bgRoled sorted) ≤ luminance ops c := by
    intro c hc
    unfold bgRoled
    rw [luminance_roleSet]
    exact bgObj_min ops hs hne c hc
  have htc := textChoice_eq ops sorted (bgRoled sorted) hs hne hbg0 hbgmin
  have hps := primChoice_spec sorted h3
  have hpcv := mem_withIdx_value 1 ((sorted.drop 1).dropLast) hps.1
  have hmlen : ((sorted.drop 1).dropLast).length = sorted.length - 2 := by
    rw [List.length_dropLast, List.length_drop]
    omega
  refine ⟨?_, ?_, ?_, ?_, hpcv.1, ?_⟩
  · unfold textIdx
    rw [htc]
  · rw [htc]
  · exact hpcv.2.1
  · unfold primIdx
    have := hpcv.2.2
    omega
  · intro c hc
    obtain ⟨j, hj⟩ := mem_withIdx_of_mem 1 _ hc
    exact hps.2 (j, c) hj

/-- Values of the three assigned objects once the indices are known to
be pairwise distinct. -/
theorem finals_eq (ops : Ops) (sorted : List SemanticColor) (h3 : 3 ≤ sorted.length)
    (ht : textIdx ops sorted = sorted.length - 1)
    (hp1 : 1 ≤ primIdx sorted) (hp2 : primIdx sorted ≤ sorted.length - 2) :
    bgFinal ops sorted = { bgObj sorted with role := ColorRole.background }
    ∧ textFinal ops sorted
      = { (textChoice ops (withIdx 0 sorted) (bgRoled sorted)).2 with role := ColorRole.text }
    ∧ primFinal ops sorted
      = { (primChoice (withIdx 0 sorted)).2 with role := ColorRole.primary } := by
  have h0p : (0 : ℕ) ≠ primIdx sorted := by omega
  have h0t : (0 : ℕ) ≠ textIdx ops sorted := by omega
  have htp : textIdx ops sorted ≠ primIdx sorted := by omega
  refine ⟨?_, ?_, ?_⟩
  · unfold bgFinal mutFun mutateAt
    rw [if_neg h0p, if_neg h0t, if_pos rfl]
  · unfold textFinal mutFun mutateAt
    rw [if_neg htp, if_pos rfl]
  · unfold primFinal mutFun mutateAt
    rw [if_pos rfl]

theorem secAccList_roles (ops : Ops) (sorted : List SemanticColor) :
    ∀ pr ∈ secAccList ops sorted, pr.2.role = pr.1 := by
  intro pr hpr
  unfold secAccList at hpr
  rcases h : remainingList ops sorted with _ | ⟨ic1, _ | ⟨ic2, rest2⟩⟩ <;> rw [h] at hpr
  · cases hpr
  · simp only [List.mem_singleton] at hpr
    subst hpr
    rfl
  · simp only [List.mem_cons, List.not_mem_nil, or_false] at hpr
    rcases hpr with rfl | rfl <;> rfl

/-- C9: every color stored in a `from_colors` palette carries the role
it is stored under. -/
theorem fromColors_role_consistent (ops : Ops) (hpow : ∀ q, 0 ≤ ops.pow24 q)
    (colors : List RGBInt) (h3 : 3 ≤ colors.length) :
    ∃ p, fromColors ops colors none = .ok p
      ∧ ∀ pr ∈ p.colors, pr.2.role = pr.1 := by
  refine ⟨_, fromColors_ok ops colors none h3, ?_⟩
  intro pr hpr
  have hsort := sortByLuminance_sorted ops (toSemantic colors)
  have hlen : 3 ≤ (sortByLuminance ops (toSemantic colors)).length := by
    have hp := (sortByLuminance_perm ops (toSemantic colors)).length_eq
    have hm : (toSemantic colors).length = colors.length := List.length_map _ _
    omega
  have hchan := sorted_chan ops colors
  obtain ⟨ht, _, hp1, hp2, _, _⟩ :=
    assignment_indices ops _ hsort hlen hchan hpow
  obtain ⟨hbgF, htxF, hprF⟩ := finals_eq ops _ hlen ht hp1 hp2
  unfold assignedColors at hpr
  rcases List.mem_append.mp hpr with h1 | h2
  · rcases List.mem_append.mp h1 with h0 | hsec
    · simp only [List.mem_cons, List.not_mem_nil, or_false] at h0
      rcases h0 with rfl | rfl | rfl
      · rw [hbgF]
      · rw [htxF]
      · rw [hprF]
    · exact secAccList_roles ops _ pr hsec
  · simp only [List.mem_singleton] at h2
    subst h2
    rfl

/-- Witness for C9 on a concrete input. -/
theorem fromColors_role_consistent_witness :
    ∃ p, fromColors opsZero colorsThree none = .ok p
      ∧ ∀ pr ∈ p.colors, pr.2.role = pr.1 :=
  fromColors_role_consistent opsZero (fun q => mul_self_nonneg q) colorsThree (by decide)

/-- C2: the roles assigned by `from_colors` on any list of at least 3
colors: BACKGROUND is a color of minimal luminance; TEXT is a color of
maximal luminance, and it meets the 3.0 contrast threshold against the
background whenever any input color does (otherwise it is exactly the
fallback, the brightest color); PRIMARY has the greatest HSL saturation
among the colors that are neither the darkest nor the brightest (the
interior of the luminance-sorted list). -/
theorem fromColors_role_assignment (ops : Ops) (hpow : ∀ q, 0 ≤ ops.pow24 q)
    (colors : List RGBInt) (h3 : 3 ≤ colors.length) :
    ∃ p, fromColors ops colors none = .ok p
      ∧ (∃ cbg, p.getColor ColorRole.background = some cbg
          ∧ ∀ c ∈ toSemantic colors, luminance ops cbg ≤ luminance ops c)
      ∧ (∃ cbg ct, p.getColor ColorRole.background = some cbg
          ∧ p.getColor ColorRole.text = some ct
          ∧ (∀ c ∈ toSemantic colors, luminance ops c ≤ luminance ops ct)
          ∧ ((∃ c ∈ toSemantic colors, 3 ≤ wcagContrast ops c cbg) →
              3 ≤ wcagContrast ops ct cbg))
      ∧ (∃ cp, p.getColor ColorRole.primary = some cp
          ∧ (∃ c ∈ ((sortByLuminance ops (toSemantic colors)).drop 1).dropLast,
              c.r = cp.r ∧ c.g = cp.g ∧ c.b = cp.b)
          ∧ ∀ c ∈ ((sortByLuminance ops (toSemantic colors)).drop 1).dropLast,
              saturation c ≤ saturation cp) := by
  have hsort := sortByLuminance_sorted ops (toSemantic colors)
  have hlen : 3 ≤ (sortByLuminance ops (toSemantic colors)).length := by
    have hp := (sortByLuminance_perm ops (toSemantic colors)).length_eq
    have hm : (toSemantic colors).length = colors.length := List.length_map _ _
    omega
  have hne : sortByLuminance ops (toSemantic colors) ≠ [] := by
    intro h
    rw [h] at hlen
    simp at hlen
  have hchan := sorted_chan ops colors
  obtain ⟨ht, htc2, hp1, hp2, hpv, hsat⟩ :=
    assignment_indices ops _ hsort hlen hchan hpow
  obtain ⟨hbgF, htxF, hprF⟩ := finals_eq ops _ hlen ht hp1 hp2
  have hmem_sorted : ∀ c ∈ toSemantic colors, c ∈ sortByLuminance ops (toSemantic colors) :=
    fun c hc => (sortByLuminance_perm ops _).mem_iff.mpr hc
  refine ⟨_, fromColors_ok ops colors none h3, ?_, ?_, ?_⟩
  · refine ⟨bgFinal ops (sortByLuminance ops (toSemantic colors)), rfl, ?_⟩
    intro c hc
    rw [hbgF, luminance_roleSet]
    exact bgObj_min ops hsort hne c (hmem_sorted c hc)
  · refine ⟨bgFinal ops (sortByLuminance ops (toSemantic colors)),
      textFinal ops (sortByLuminance ops (toSemantic colors)), rfl, rfl, ?_, ?_⟩
    · intro c hc
      rw [htxF, luminance_roleSet, htc2]
      exact sorted_le_getLastD ops hsort hne c (hmem_sorted c hc)
    · rintro ⟨c, hc, h3c⟩
      rw [htxF, wcagContrast_roleSet, htc2]
      have hb0 : 0 ≤ luminance ops (bgFinal ops (sortByLuminance ops (toSemantic colors))) := by
        rw [hbgF, luminance_roleSet]
        have hm : bgObj (sortByLuminance ops (toSemantic colors))
            ∈ sortByLuminance ops (toSemantic colors) := headD_mem hne default
        exact luminance_nonneg ops hpow _ (hchan _ hm).1 (hchan _ hm).2.1 (hchan _ hm).2.2
      have hbmin : luminance ops (bgFinal ops (sortByLuminance ops (toSemantic colors)))
          ≤ luminance ops c := by
        rw [hbgF, luminance_roleSet]
        exact bgObj_min ops hsort hne c (hmem_sorted c hc)
      have hcl : luminance ops c
          ≤ luminance ops ((sortByLuminance ops (toSemantic colors)).getLastD default) :=
        sorted_le_getLastD ops hsort hne c (hmem_sorted c hc)
      exact le_trans h3c (contrast_mono ops hb0 hbmin hcl)
  · refine ⟨primFinal ops (sortByLuminance ops (toSemantic colors)), rfl, ?_, ?_⟩
    · refine ⟨(primChoice (withIdx 0 (sortByLuminance ops (toSemantic colors)))).2, hpv, ?_, ?_, ?_⟩
        <;> rw [hprF]
    · intro c hc
      rw [hprF, saturation_roleSet]
      exact hsat c hc

/-- Witness for C2 on a concrete input. -/
theorem fromColors_role_assignment_witness :
    ∃ p, fromColors opsZero colorsThree none = .ok p
      ∧ (∃ cbg, p.getColor ColorRole.background = some cbg
          ∧ ∀ c ∈ toSemantic colorsThree, luminance opsZero cbg ≤ luminance opsZero c)
      ∧ (∃ cbg ct, p.getColor ColorRole.background = some cbg
          ∧ p.getColor ColorRole.text = some ct
          ∧ (∀ c ∈ toSemantic colorsThree, luminance opsZero c ≤ luminance opsZero ct)
          ∧ ((∃ c ∈ toSemantic colorsThree, 3 ≤ wcagContrast opsZero c cbg) →
              3 ≤ wcagContrast opsZero ct cbg))
      ∧ (∃ cp, p.getColor ColorRole.primary = some cp
          ∧ (∃ c ∈ ((sortByLuminance opsZero (toSemantic colorsThree)).drop 1).dropLast,
              c.r = cp.r ∧ c.g = cp.g ∧ c.b = cp.b)
          ∧ ∀ c ∈ ((sortByLuminance opsZero (toSemantic colorsThree)).drop 1).dropLast,
              saturation c ≤ saturation cp) :=
  fromColors_role_assignment opsZero (fun q => mul_self_nonneg q) colorsThree (by decide)

end AIThemer
